import Mathlib

/-!
Verification development for the pyrae document decomposition engine
(`pyrae/core.py`, `pyrae/util.py`).

The HTML documents handled by the decoders are modelled by the `HNode`
tree below, which mirrors what the Python code reads off a parsed
BeautifulSoup document: a tag has a name, plain attributes, an optional
multi-valued `class` attribute, and children; everything else is a text
node.  Serialising a tag and re-parsing it (the `str(tag)` idiom of the
source) is the identity on this model, so decoders receive node lists
directly.  Character classes of the Python regular expressions
(`\w`, `[^\W\d_]`, upper/lower case) are modelled over ASCII, which
covers every literal the code compares against.

Python exceptions are modelled by `Except String`; the best-effort
`from_html` constructor corresponds to `Except.toOption`.
-/

namespace Pyrae

/-- A node of a parsed HTML fragment: a tag (name, attributes, optional
class list, children) or a text node. -/
inductive HNode where
  | tagN (name : String) (attrs : List (String × String))
      (classes : Option (List String)) (children : List HNode)
  | textN (s : String)

/-- Tag name of a node; `none` for text nodes (BeautifulSoup gives
`None` as the name of a `NavigableString`). -/
def nodeName : HNode → Option String
  | .tagN nm _ _ _ => some nm
  | .textN _ => none

/-- Attribute list of a node (empty for text nodes). -/
def nodeAttrs : HNode → List (String × String)
  | .tagN _ a _ _ => a
  | .textN _ => []

/-- The `class` attribute of a node, when present. -/
def nodeClasses : HNode → Option (List String)
  | .tagN _ _ c _ => c
  | .textN _ => none

/-- Children of a node (empty for text nodes). -/
def nodeChildren : HNode → List HNode
  | .tagN _ _ _ ch => ch
  | .textN _ => []

/-- Look up a plain attribute of a tag (`tag['key']` when present). -/
def attrOf (n : HNode) (key : String) : Option String :=
  (nodeAttrs n).lookup key

mutual
/-- `get_text()` of a single node: concatenation of all text descendants
in document order. -/
def getTextN : HNode → String
  | .textN s => s
  | .tagN _ _ _ ch => getTextL ch

/-- `get_text()` of a forest. -/
def getTextL : List HNode → String
  | [] => ""
  | n :: r => getTextN n ++ getTextL r
end

mutual
/-- First tag (depth-first, document order) of a forest satisfying a
predicate on (name, attrs, classes): the search of BeautifulSoup's
`find`. -/
def findNodeP (p : String → List (String × String) → Option (List String) → Bool) :
    HNode → Option HNode
  | .textN _ => none
  | .tagN nm a c ch =>
      if p nm a c then some (.tagN nm a c ch) else findListP p ch

/-- `find` over a list of sibling nodes. -/
def findListP (p : String → List (String × String) → Option (List String) → Bool) :
    List HNode → Option HNode
  | [] => none
  | n :: r =>
      match findNodeP p n with
      | some t => some t
      | none => findListP p r
end

/-- First descendant tag with the given name (`soup.find(name=...)`). -/
def findName (nm : String) (l : List HNode) : Option HNode :=
  findListP (fun n _ _ => n = nm) l

/-- Rendering of plain attributes. -/
def renderAttrs : List (String × String) → String
  | [] => ""
  | (k, v) :: r => " " ++ k ++ "=\"" ++ v ++ "\"" ++ renderAttrs r

/-- Rendering of the class attribute. -/
def renderClasses : Option (List String) → String
  | none => ""
  | some l => " class=\"" ++ String.intercalate " " l ++ "\""

mutual
/-- Serialisation of a node (the `str(tag)` idiom).  Only used to carry
the `html` field of entities; no decoder inspects its result. -/
def renderN : HNode → String
  | .textN s => s
  | .tagN nm a c ch =>
      "<" ++ nm ++ renderAttrs a ++ renderClasses c ++ ">" ++ renderL ch
        ++ "</" ++ nm ++ ">"

/-- Serialisation of a forest. -/
def renderL : List HNode → String
  | [] => ""
  | n :: r => renderN n ++ renderL r
end

/-- `.string` of BeautifulSoup: the unique string below a node, if the
node is a text node or a chain of single children ending in one. -/
def nodeString : HNode → Option String
  | .textN s => some s
  | .tagN _ _ _ [.textN s] => some s
  | .tagN _ _ _ [.tagN nm a c ch] => nodeString (.tagN nm a c ch)
  | .tagN _ _ _ _ => none

/-- Python values that appear in the dictionaries the entities build:
strings, integers, booleans, lists and (insertion-ordered) dicts. -/
inductive JVal where
  | s (v : String)
  | nat (v : Nat)
  | b (v : Bool)
  | arr (l : List JVal)
  | obj (l : List (String × JVal))

/-- Association-list lookup, first match (Python `d[k]` / `k in d`). -/
def alookup (l : List (String × JVal)) (k : String) : Option JVal :=
  match l with
  | [] => none
  | (a, v) :: r => if k = a then some v else alookup r k

/-- `d[k] = v` on an insertion-ordered dict: replace in place when the
key exists, append otherwise. -/
def alistSet (l : List (String × JVal)) (k : String) (v : JVal) :
    List (String × JVal) :=
  match l with
  | [] => [(k, v)]
  | (a, w) :: r => if k = a then (a, v) :: r else (a, w) :: alistSet r k v

/-- `old.update(new)` on insertion-ordered dicts: the items of `new` are
assigned one by one, in order. -/
def dictUpdate (old : List (String × JVal)) : List (String × JVal) → List (String × JVal)
  | [] => old
  | (k, v) :: t => dictUpdate (alistSet old k v) t

/-- `pyrae.util.nested_dictionary_set` with the flags at their default
values (`create_missing=True`, `update_if_dicts=True`), which is how the
conjugation decoder calls it.  Walking into a non-dict intermediate
value, or an empty key path, raises in Python (for string keys) and is
an error here. -/
def nested_dictionary_set (dictionary : List (String × JVal))
    (keys : List String) (value : JVal) :
    Except String (List (String × JVal)) :=
  match keys with
  | [] => .error "IndexError"
  | [k] =>
      match alookup dictionary k with
      | some (JVal.obj old) =>
          match value with
          | JVal.obj newm => .ok (alistSet dictionary k (JVal.obj (dictUpdate old newm)))
          | _ => .ok (alistSet dictionary k value)
      | some _ => .ok (alistSet dictionary k value)
      | none => .ok (dictionary ++ [(k, value)])
  | k :: rest =>
      match alookup dictionary k with
      | some (JVal.obj sub) => do
          let sub' ← nested_dictionary_set sub rest value
          .ok (alistSet dictionary k (JVal.obj sub'))
      | some _ => .error "TypeError"
      | none => do
          let sub' ← nested_dictionary_set [] rest value
          .ok (dictionary ++ [(k, JVal.obj sub')])

/-- Value found by walking a key path through nested dicts. -/
def lookupPath (d : List (String × JVal)) : List String → Option JVal
  | [] => none
  | [k] => alookup d k
  | k :: rest =>
      match alookup d k with
      | some (JVal.obj sub) => lookupPath sub rest
      | _ => none

/-! ### String primitives (ASCII model of the Python string operations) -/

/-- ASCII lower-casing of a character (`str.lower`). -/
def charLower (c : Char) : Char :=
  if 'A' ≤ c ∧ c ≤ 'Z' then Char.ofNat (c.toNat + 32) else c

/-- `str.lower()`. -/
def pyLower (s : String) : String := String.mk (s.data.map charLower)

/-- Python's `\s` character class. -/
def pyIsSpace (c : Char) : Bool :=
  c = ' ' || c = '\t' || c = '\n' || c = '\r' || c = '\x0b' || c = '\x0c'

/-- Python's `\w` character class (ASCII part). -/
def pyIsWordChar (c : Char) : Bool := c.isAlphanum || c = '_'

/-- The `[^\W\d_]` character class: a word character that is neither a
digit nor an underscore, i.e. a letter. -/
def pyIsLemaLetter (c : Char) : Bool := c.isAlpha

/-- `str.strip()`. -/
def pyStrip (s : String) : String :=
  String.mk (((s.data.dropWhile (pyIsSpace ·)).reverse.dropWhile (pyIsSpace ·)).reverse)

/-- Prefix test over character lists. -/
def charsIsPre : List Char → List Char → Bool
  | [], _ => true
  | _, [] => false
  | a :: as, b :: bs => a = b && charsIsPre as bs

/-- `str.startswith`. -/
def pyStarts (s pre : String) : Bool := charsIsPre pre.data s.data

/-- `str.endswith`. -/
def pyEnds (s suf : String) : Bool := charsIsPre suf.data.reverse s.data.reverse

/-- Substring containment (`needle in haystack`). -/
def charsContains (hay needle : List Char) : Bool :=
  match hay with
  | [] => needle = []
  | _ :: rest => charsIsPre needle hay || charsContains rest needle

/-- `needle in haystack` on strings. -/
def pyContains (hay needle : String) : Bool := charsContains hay.data needle.data

/-- `str.split(sep)` worker; the fuel argument, always at least the
length of the final argument, only makes the recursion structural (each
step consumes at least one character). -/
def charsSplitFuel (sep1 : Char) (sepRest : List Char) : Nat → List Char → List (List Char)
  | 0, l => [l]
  | _ + 1, [] => [[]]
  | fuel + 1, c :: rest =>
      if charsIsPre (sep1 :: sepRest) (c :: rest) then
        [] :: charsSplitFuel sep1 sepRest fuel (rest.drop sepRest.length)
      else
        match charsSplitFuel sep1 sepRest fuel rest with
        | [] => [[c]]
        | p :: ps => (c :: p) :: ps

/-- `str.split(sep)` for a separator given as head and tail (hence
non-empty, as in every call the code makes). -/
def charsSplit (sep1 : Char) (sepRest : List Char) (l : List Char) : List (List Char) :=
  charsSplitFuel sep1 sepRest l.length l

/-- `str.split(sep)` on strings (the separators used are non-empty). -/
def pySplit (s sep : String) : List String :=
  match sep.data with
  | [] => [s]
  | c :: cs => (charsSplit c cs s.data).map String.mk

/-- `str.isupper()`: at least one cased character and no lower-case
cased character (ASCII model: cased characters are letters). -/
def pyIsUpper (s : String) : Bool :=
  s.data.any (·.isAlpha) && s.data.all (fun c => !c.isAlpha || c.isUpper)

/-- Numeric value of a digit run (`int(...)`). -/
def natOfDigits (l : List Char) : Nat :=
  l.foldl (fun acc c => acc * 10 + (c.toNat - '0'.toNat)) 0

/-- Concatenation of a list of strings (`''.join`). -/
def strJoin (l : List String) : String := l.foldl (· ++ ·) ""

/-- Effectful left fold over `Except`, unfolding step by step (the
`for` loops of the decoders). -/
def foldME {σ α : Type} (f : σ → α → Except String σ) : σ → List α → Except String σ
  | s, [] => .ok s
  | s, x :: r => do
      let s' ← f s x
      foldME f s' r

/-- Effectful map over `Except`, in order, failing at the first
error. -/
def mapME {α β : Type} (f : α → Except String β) : List α → Except String (List β)
  | [] => .ok []
  | x :: r => do
      let y ← f x
      let ys ← mapME f r
      .ok (y :: ys)

/-- Effectful map over `Option`, in order. -/
def mapMO {α β : Type} (f : α → Option β) : List α → Option (List β)
  | [] => some []
  | x :: r => do
      let y ← f x
      let ys ← mapMO f r
      some (y :: ys)

/-! ### Regular-expression models

Each Python pattern in the source is matched by greedy character-class
runs.  In every pattern below each greedy run is over a character class
disjoint from everything that can follow it, except in the definition
index pattern where the one backtracking case is spelled out, so the
deterministic functions here agree with Python's backtracking `match`.
-/

/-- Result of `ArticleLema.LEMA_REGEX_STRING`, the pattern
`^(?P<lema>[^\W\d_]+)(?P<index>\d+)?(?:,\s+(?P<female_suffix>\w+))?(?:\s+\((?P<related>\w+)\))?$`. -/
structure LemaMatch where
  lema : String
  index : Option String
  female_suffix : String
  hasFemale : Bool
  related : Option String
deriving DecidableEq

/-- The optional `,\s+(\w+)` group: on success returns the capture and
the rest; on failure the input is left for the following groups. -/
def lemaCommaGroup : List Char → Option (List Char) × List Char
  | ',' :: rest =>
      let (sp, r) := rest.span (pyIsSpace ·)
      if sp = [] then (none, ',' :: rest)
      else
        let (w, r2) := r.span (pyIsWordChar ·)
        if w = [] then (none, ',' :: rest) else (some w, r2)
  | l => (none, l)

/-- The optional `\s+\((\w+)\)` group. -/
def lemaParenGroup (l : List Char) : Option (List Char) × List Char :=
  let (sp, r) := l.span (pyIsSpace ·)
  if sp = [] then (none, l)
  else
    match r with
    | '(' :: r2 =>
        let (w, r3) := r2.span (pyIsWordChar ·)
        if w = [] then (none, l)
        else
          match r3 with
          | ')' :: r4 => (some w, r4)
          | _ => (none, l)
    | _ => (none, l)

/-- `ArticleLema.lema_re.match(s)`. -/
def lemaReMatch (s : String) : Option LemaMatch :=
  let (lm, r1) := s.data.span (pyIsLemaLetter ·)
  if lm = [] then none
  else
    let (dg, r2) := r1.span (·.isDigit)
    let (fem, r3) := lemaCommaGroup r2
    let (rel, r4) := lemaParenGroup r3
    if r4 = [] then
      some { lema := String.mk lm,
             index := if dg = [] then none else some (String.mk dg),
             female_suffix := (fem.map String.mk).getD "",
             hasFemale := fem.isSome,
             related := rel.map String.mk }
    else none

/-- `Definition.__INDEX_REGEX_STRING`, the pattern `^(?P<index>\d+).\D*$`
(note the unescaped dot).  Greedy `\d+` backtracks by at most one digit,
which happens exactly when the whole string is digits. -/
def defIndexMatch (s : String) : Option Nat :=
  let m := s.data.takeWhile (·.isDigit)
  let rest := s.data.drop m.length
  if m = [] then none
  else if rest ≠ [] ∧ (rest.drop 1).all (fun c => !c.isDigit) then
    some (natOfDigits m)
  else if rest = [] ∧ 2 ≤ m.length then
    some (natOfDigits m.dropLast)
  else none

/-- `Definition.__VERB_REGEX_STRING`, the pattern `^.*verbo.*$` with
`re.IGNORECASE`: without `DOTALL`, `. *` stays inside the first line and
`$` also matches just before a final newline. -/
def verbTextMatch (s : String) : Bool :=
  let cs := s.data.map charLower
  match charsSplit '\n' [] cs with
  | [seg] => charsContains seg "verbo".data
  | [seg, []] => charsContains seg "verbo".data
  | _ => false

/-- `re.search` of a `stem.` alternative (any character after the stem,
newline excluded). -/
def searchStemDot (stem : List Char) : List Char → Bool
  | [] => false
  | c :: rest =>
      (charsIsPre stem (c :: rest) &&
        (match (c :: rest).drop stem.length with
         | d :: _ => d ≠ '\n'
         | [] => false)) || searchStemDot stem rest

/-- The search `re.search('part.|ger.|pret.|fut.|pres.|infinit.', abbr)`
used by `Definition.is_verb` (case-sensitive). -/
def verbAbbrSearch (s : String) : Bool :=
  ["part", "ger", "pret", "fut", "pres", "infinit"].any
    (fun stem => searchStemDot stem.data s.data)

/- `SearchResult.__INDEX_REGEX_STRING` is declared but never used by the
decoders; it is omitted. -/

/-! ### Abbr -/

/-- The `Abbr` entity. -/
structure AbbrE where
  abbr : String
  class_ : String
  text : String
  html : String
deriving DecidableEq

/-- `Abbr._parse_html`.  The fragment must contain an `abbr` element;
its expanded text comes from the `title` attribute, required to be
present (but allowed to be empty). -/
def parseAbbr (frag : List HNode) : Except String AbbrE := do
  match findName "abbr" frag with
  | none => .error "Invalid HTML."
  | some ab =>
      let abbrText := getTextN ab
      let cls ←
        match nodeClasses ab with
        | none => pure ""
        | some [] => .error "IndexError"
        | some (c :: _) => pure c
      match attrOf ab "title" with
      | none => .error "The title attribute is expected to contain the expanded text."
      | some t =>
          .ok { abbr := abbrText, class_ := cls, text := t, html := renderL frag }

/-- `Abbr.__str__`. -/
def abbrStr (a : AbbrE) : String := a.abbr ++ " (" ++ a.text ++ ")"

/-! ### Word -/

/-- The `Word` entity. -/
structure WordE where
  text : String
  href : String
  parent_href : String
  is_active_link : Bool
  html : String
deriving DecidableEq

/-- `DLE_MAIN_URL`. -/
def DLE_MAIN_URL : String := "https://dle.rae.es"

/-- `Word.link`. -/
def wordLink (w : WordE) : String :=
  if w.href ≠ "" then DLE_MAIN_URL ++ w.href else ""

/-- `Word._parse_html`: a `mark` element, else an anchor, else a span of
class `u`; anything else is a parse error. -/
def parseWord (frag : List HNode) (parentHref : String) : Except String WordE :=
  match findName "mark" frag with
  | some mk =>
      match attrOf mk "data-id" with
      | none => .error "KeyError"
      | some did =>
          .ok { text := getTextN mk, href := "/?id=" ++ did,
                parent_href := parentHref, is_active_link := false,
                html := renderL frag }
  | none =>
  match findName "a" frag with
  | some aTag =>
      match attrOf aTag "href" with
      | none => .error "KeyError"
      | some h0 =>
          let h := if h0 ≠ "" && !pyStarts h0 "/" then "/" ++ parentHref ++ h0 else h0
          .ok { text := pyStrip (getTextN aTag), href := h,
                parent_href := parentHref, is_active_link := true,
                html := renderL frag }
  | none =>
  match findName "span" frag with
  | some sp =>
      match nodeClasses sp with
      | none => .error "KeyError"
      | some [] => .error "IndexError"
      | some (c :: _) =>
          if pyLower c = "u" then
            .ok { text := getTextN sp, href := "", parent_href := parentHref,
                  is_active_link := false, html := renderL frag }
          else .error "The HTML code cannot be parsed to a Word."
  | none => .error "The HTML code cannot be parsed to a Word."

/-! ### Sentence -/

/-- A component of a sentence: abbreviation, word or plain string. -/
inductive SComp where
  | ab (a : AbbrE)
  | wd (w : WordE)
  | txt (s : String)
deriving DecidableEq

/-- `str(component)`. -/
def compStr : SComp → String
  | .ab a => abbrStr a
  | .wd w => w.text
  | .txt s => s

/-- The `Sentence` entity. -/
structure SentenceE where
  components : List SComp
  html : String
deriving DecidableEq

/-- `Sentence.text`. -/
def sentenceText (s : SentenceE) : String :=
  pyStrip (strJoin (s.components.map compStr))

/-- Text content used by the sentence fallback:
`tag.get_text() if isinstance(tag, Tag) else str(tag)`. -/
def nodeFallbackText : HNode → String
  | .textN s => s
  | n => getTextN n

/-- The per-child token chain of `Sentence._parse_html`: skip ignored
tag names, try `Abbr.from_html`, then `Word.from_html`, then plain
text. -/
def sentenceComps (ignoreTags : List String) : List HNode → List SComp
  | [] => []
  | n :: r =>
      let rest := sentenceComps ignoreTags r
      if (nodeName n).elim false (ignoreTags.contains ·) then rest
      else
        match (parseAbbr [n]).toOption with
        | some a => .ab a :: rest
        | none =>
            match (parseWord [n] "").toOption with
            | some w => .wd w :: rest
            | none => .txt (nodeFallbackText n) :: rest

/-- `Sentence._parse_html`: walks the children of the fragment's first
node (which must be a tag). -/
def parseSentence (frag : List HNode) (ignoreTags : List String) :
    Except String SentenceE :=
  match frag.head? with
  | none => .error "IndexError"
  | some (.textN _) => .error "AttributeError"
  | some (.tagN _ _ _ ch) =>
      .ok { components := sentenceComps ignoreTags ch, html := renderL frag }

/-! ### Definition -/

/-- The `Definition` entity. -/
structure DefinitionE where
  id : String
  index : Nat
  category : Option AbbrE
  first_of_category : Bool
  abbreviations : List AbbrE
  sentence : SentenceE
  examples : List SentenceE
  raw_text : String
  html : String
deriving DecidableEq

/-- State accumulated over the children scan of `Definition._parse_html`. -/
structure DefAcc where
  index : Nat
  category : Option AbbrE
  first_of_category : Bool
  abbreviations : List AbbrE
  examples : List SentenceE

/-- `tag['class'][0].lower() if tag.has_attr('class') else ''`;
an empty class list raises. -/
def tagClassFull (classes : Option (List String)) : Except String String :=
  match classes with
  | none => .ok ""
  | some [] => .error "IndexError"
  | some (c :: _) => .ok (pyLower c)

/-- One child step of the `Definition._parse_html` scan. -/
def defStep (acc : DefAcc) (n : HNode) : Except String DefAcc :=
  match n with
  | .textN _ => .ok acc
  | .tagN nm _ classes _ => do
      let tagClass ← tagClassFull classes
      if nm = "span" then
        if tagClass = "n_acep" then
          match defIndexMatch (getTextN n) with
          | some i => .ok { acc with index := i }
          | none => .ok acc
        else if tagClass = "h" then do
          let ex ← parseSentence [n] []
          .ok { acc with examples := acc.examples ++ [ex] }
        else .ok acc
      else if nm = "abbr" then
        match acc.category with
        | none => do
            let a ← parseAbbr [n]
            .ok { acc with category := some a, first_of_category := tagClass = "d" }
        | some _ => do
            let a ← parseAbbr [n]
            .ok { acc with abbreviations := acc.abbreviations ++ [a] }
      else .ok acc

/-- `Definition._parse_html`. -/
def parseDefinition (frag : List HNode) : Except String DefinitionE := do
  match findName "p" frag with
  | none => .error "Invalid HTML tag passed for a definition."
  | some pTag =>
      match nodeClasses pTag with
      | none => .error "Invalid HTML tag passed for a definition."
      | some clsList =>
          match clsList.head? with
          | none => .error "IndexError"
          | some c0 =>
              match (pyLower c0).data.head? with
              | none => .error "IndexError"
              | some ch0 =>
                  if ch0 ≠ 'j' ∧ ch0 ≠ 'm' then
                    .error "Paragraph class does not correspond to a definition."
                  else do
                    let rawText := getTextL frag
                    let idv := (attrOf pTag "id").getD ""
                    let acc ← foldME defStep
                      { index := 0, category := none, first_of_category := false,
                        abbreviations := [], examples := [] }
                      (nodeChildren pTag)
                    let se ← parseSentence [pTag] ["abbr", "span"]
                    .ok { id := idv, index := acc.index, category := acc.category,
                          first_of_category := acc.first_of_category,
                          abbreviations := acc.abbreviations, sentence := se,
                          examples := acc.examples, raw_text := rawText,
                          html := renderL frag }

/-- `Definition.is_adverb`; `none` models the `AttributeError` raised
when no category was parsed. -/
def dIsAdverb (d : DefinitionE) : Option Bool :=
  d.category.map (fun a => a.abbr = "adv.")

/-- `Definition.is_adjective`. -/
def dIsAdjective (d : DefinitionE) : Option Bool :=
  d.category.map (fun a => a.abbr = "adj.")

/-- `Definition.is_noun`. -/
def dIsNoun (d : DefinitionE) : Option Bool :=
  d.category.map (fun a => a.abbr = "s." || a.abbr = "sust.")

/-- `Definition.is_pronoun`. -/
def dIsPronoun (d : DefinitionE) : Option Bool :=
  d.category.map (fun a => a.abbr = "pron.")

/-- `Definition.is_verb`. -/
def dIsVerb (d : DefinitionE) : Option Bool :=
  d.category.map (fun a => verbTextMatch a.text || verbAbbrSearch a.abbr)

/-! ### EntryLema and ArticleLema -/

/-- The `EntryLema` entity. -/
structure EntryLemaE where
  id : String
  is_foreign : Bool
  lema : String
  html : String
deriving DecidableEq

/-- `EntryLema._parse_html`, parametrised by the `PROCESSING_TAGS`
configuration (tag name and class letter): `('p', 'k')` for
`EntryLema`, `('header', 'f')` for `ArticleLema`. -/
def parseLemaWith (tagName : String) (classChar : Char) (frag : List HNode) :
    Except String EntryLemaE := do
  match findName tagName frag with
  | none => .error "Invalid HTML."
  | some t =>
      match nodeClasses t with
      | none => .error "Invalid HTML."
      | some [] => .error "IndexError"
      | some (c0 :: _) =>
          match (pyLower c0).data.head? with
          | none => .error "IndexError"
          | some ch0 =>
              if ch0 ≠ classChar then .error "Invalid HTML."
              else
                .ok { id := (attrOf t "id").getD "",
                      is_foreign := (findName "i" (nodeChildren t)).isSome,
                      lema := getTextN t, html := renderL frag }

/-- `EntryLema._parse_html` proper. -/
def parseEntryLema (frag : List HNode) : Except String EntryLemaE :=
  parseLemaWith "p" 'k' frag

/-- The `ArticleLema` entity. -/
structure ArticleLemaE where
  id : String
  is_foreign : Bool
  lema : String
  index : Nat
  female_suffix : String
  html : String
deriving DecidableEq

/-- The regex post-processing step of `ArticleLema._parse_html`: on a
match the headword becomes the `lema` capture and the optional index and
feminine suffix populate their fields; a miss leaves everything at its
default. -/
def articleLemaPost (base : EntryLemaE) : ArticleLemaE :=
  match lemaReMatch base.lema with
  | none =>
      { id := base.id, is_foreign := base.is_foreign, lema := base.lema,
        index := 0, female_suffix := "", html := base.html }
  | some m =>
      { id := base.id, is_foreign := base.is_foreign, lema := m.lema,
        index := match m.index with
                 | some dg => natOfDigits dg.data
                 | none => 0,
        female_suffix := if m.hasFemale then pyStrip m.female_suffix else "",
        html := base.html }

/-- `ArticleLema._parse_html`. -/
def parseArticleLema (frag : List HNode) : Except String ArticleLemaE := do
  let base ← parseLemaWith "header" 'f' frag
  .ok (articleLemaPost base)

/-- The decoding of a raw headword string by `ArticleLema`: the part of
`ArticleLema._parse_html` that runs after the base extraction stored the
raw text as the lemma. -/
def articleLemaFromRaw (raw : String) : ArticleLemaE :=
  articleLemaPost { id := "", is_foreign := false, lema := raw, html := "" }

/-- `ArticleLema.is_acronym`: `self._lema.isupper()`. -/
def lemaIsAcronym (l : ArticleLemaE) : Bool := pyIsUpper l.lema

/-- `ArticleLema.is_prefix`: `self._lema.startswith('-')`. -/
def lemaIsPrefix (l : ArticleLemaE) : Bool := pyStarts l.lema "-"

/-- `ArticleLema.is_suffix`: `self._lema.endswith('-')`. -/
def lemaIsSuffix (l : ArticleLemaE) : Bool := pyEnds l.lema "-"

/-! ### Entry -/

/-- The `Entry` entity (a lemma with notes and definitions). -/
structure EntryE where
  lema : EntryLemaE
  supplementary_info : List SentenceE
  definitions : List DefinitionE
  raw_text : String
  html : String
deriving DecidableEq

/-- One child step of `Entry._process_entry`, parametrised by the lemma
decoder and the definition class letter of the concrete entry kind
(`Entry`: `parseEntryLema` and `'m'`; `Article`: `parseArticleLema` and
`'j'`).  While no lemma has been claimed, each tag is first offered to
the lemma decoder through the fallible `from_html`. -/
def entryStep {L : Type} (parseL : List HNode → Except String L) (defChar : Char)
    (acc : Option L × List SentenceE × List DefinitionE) (n : HNode) :
    Except String (Option L × List SentenceE × List DefinitionE) :=
  match n with
  | .textN _ => .ok acc
  | .tagN nm _ classes _ =>
      match acc.1, (if acc.1.isNone then (parseL [n]).toOption else none) with
      | none, some l => .ok (some l, acc.2.1, acc.2.2)
      | _, _ => do
          let letter ←
            match classes with
            | none => pure (none : Option Char)
            | some [] => .error "IndexError"
            | some (c0 :: _) =>
                match (pyLower c0).data.head? with
                | none => .error "IndexError"
                | some ch0 => pure (some ch0)
          if nm = "p" ∧ letter = some 'n' then do
            let s ← parseSentence [n] []
            .ok (acc.1, acc.2.1 ++ [s], acc.2.2)
          else if nm = "p" ∧ letter = some defChar then do
            let d ← parseDefinition [n]
            .ok (acc.1, acc.2.1, acc.2.2 ++ [d])
          else .ok acc

/-- `Entry._process_entry` over a child list: the scan followed by the
missing-lemma check. -/
def processEntry {L : Type} (parseL : List HNode → Except String L) (defChar : Char)
    (children : List HNode) :
    Except String (L × List SentenceE × List DefinitionE) := do
  let acc ← foldME (entryStep parseL defChar) (none, [], []) children
  match acc.1 with
  | none => .error "Could not process lema from the given HTML."
  | some l => .ok (l, acc.2.1, acc.2.2)

/-- `Entry._parse_html`: processes the children of the fragment's first
node. -/
def parseEntry (frag : List HNode) : Except String EntryE := do
  match frag.head? with
  | none => .error "IndexError"
  | some (.textN _) => .error "AttributeError"
  | some (.tagN _ _ _ ch) => do
      let (l, supp, defs) ← processEntry parseEntryLema 'm' ch
      .ok { lema := l, supplementary_info := supp, definitions := defs,
            raw_text := getTextL frag, html := renderL frag }

/-! ### Conjugation -/

/-- The `Conjugation` entity. -/
structure ConjugationE where
  id : String
  verb : String
  conjugations : List (String × JVal)
  html : String

/-- `Conjugation.CONJUGATION_BASE_DICT`. -/
def conjBase : List (String × JVal) :=
  [("Formas no personales", .obj
      [("Infinitivo", .s ""), ("Gerundio", .s ""), ("Participio", .s "")]),
   ("Indicativo", .obj
      [("Presente", .obj []), ("Copretérito", .obj []), ("Pretérito", .obj []),
       ("Futuro", .obj []), ("Pospretérito", .obj [])]),
   ("Subjuntivo", .obj
      [("Presente", .obj []), ("Futuro", .obj []), ("Copretérito", .obj [])]),
   ("Imperativo", .obj [])]

/-- Case-insensitive containment used for the tense-header search
`re.search(f'/ {key}' if key != 'Presente' else key, header_text,
re.IGNORECASE)`; none of the keys contains a regex metacharacter. -/
def containsIC (hay pat : String) : Bool :=
  charsContains (hay.data.map charLower) (pat.data.map charLower)

/-- Association lookup with `Nat` keys (the per-column tense map). -/
def nlookup (l : List (Nat × String)) (k : Nat) : Option String :=
  match l with
  | [] => none
  | (a, v) :: r => if k = a then some v else nlookup r k

/-- `d[k] = v` with `Nat` keys. -/
def nset (l : List (Nat × String)) (k : Nat) (v : String) : List (Nat × String) :=
  match l with
  | [] => [(k, v)]
  | (a, w) :: r => if k = a then (a, v) :: r else (a, w) :: nset r k v

/-- Scanner state of the conjugation table loop: the accumulating
dictionary, the active mood key and the column-to-tense map. -/
structure ConjSt where
  conj : List (String × JVal)
  typeKey : String
  subKeys : List (Nat × String)

/-- `verbs.split(...)` for a data cell: the first of the two separators
contained in the text splits it, a single-element result (unreachable)
collapses back to a string. -/
def splitVerbs (s : String) (seps : List String) : JVal :=
  match seps.find? (fun sep => pyContains s sep) with
  | some sep =>
      let parts := pySplit s sep
      if parts.length = 1 then .s (parts.headD "") else .arr (parts.map .s)
  | none => .s s

/-- One cell of a conjugation table row (`cell_index` is the position in
`row_tag.contents`, text nodes included). -/
def conjCell (seps : List String) (row : List HNode) (cellIndex : Nat)
    (st : ConjSt) (cell : HNode) : Except String ConjSt := do
  if cellIndex < 3 then .ok st
  else
    match nodeName cell with
    | some "th" =>
        let htext := getTextN cell
        if (alookup st.conj htext).isSome then
          .ok { st with typeKey := htext, subKeys := [] }
        else
          match alookup st.conj st.typeKey with
          | none => .error "KeyError"
          | some (.obj sub) =>
              let subKey := ((sub.find? (fun p =>
                containsIC htext (if p.1 = "Presente" then "Presente" else "/ " ++ p.1))).map
                  (·.1)).getD ""
              .ok { st with subKeys := nset st.subKeys cellIndex subKey }
          | some _ => .error "AttributeError"
    | some "td" =>
        let persona := ((row.get? 2).bind nodeString).getD ""
        let keys ←
          match st.subKeys with
          | [] => pure [st.typeKey]
          | _ =>
              match nlookup st.subKeys cellIndex with
              | none => .error "KeyError"
              | some sk => pure [st.typeKey, sk]
        let verbsVal := splitVerbs (getTextN cell) seps
        let dataValue := if persona ≠ "" then JVal.obj [(persona, verbsVal)] else verbsVal
        let conj' ← nested_dictionary_set st.conj keys dataValue
        .ok { st with conj := conj' }
    | _ => .ok st

/-- The cells of one row, with their indices. -/
def conjCells (seps : List String) (row : List HNode) :
    Nat → ConjSt → List HNode → Except String ConjSt
  | _, st, [] => .ok st
  | i, st, c :: rest => do
      let st' ← conjCell seps row i st c
      conjCells seps row (i + 1) st' rest

/-- The rows of the conjugation table (`table_tag.children`); a text
node among the rows raises in Python (`NavigableString` has no
`contents`). -/
def conjRows (seps : List String) : ConjSt → List HNode → Except String ConjSt
  | st, [] => .ok st
  | _, .textN _ :: _ => .error "AttributeError"
  | st, .tagN nm a c ch :: rest => do
      let st' ← conjCells seps (nodeChildren (.tagN nm a c ch)) 0 st ch
      conjRows seps st' rest

/-- `Conjugation._parse_html`. -/
def parseConjugation (frag : List HNode) : Except String ConjugationE := do
  match findName "div" frag with
  | none => .error "Invalid HTML for a conjugations table."
  | some dv =>
      match attrOf dv "id" with
      | none => .error "Invalid HTML for a conjugations table."
      | some did =>
          if did ≠ "conjugacion" then .error "Invalid HTML for a conjugations table."
          else
            let cid :=
              match findName "article" (nodeChildren dv) with
              | some t =>
                  match attrOf t "id" with
                  | some i => "conjugacion" ++ i
                  | none => ""
              | none => ""
            let verb :=
              match findName "header" (nodeChildren dv) with
              | some h =>
                  match findName "b" (nodeChildren h) with
                  | some bT => getTextN bT
                  | none => ""
              | none => ""
            match findListP (fun nm _ cl =>
                nm = "table" && (cl.elim false (·.contains "cnj"))) (nodeChildren dv) with
            | none =>
                .ok { id := cid, verb := verb, conjugations := [],
                      html := renderL frag }
            | some tbl => do
                let seps : List String :=
                  [(if pyStarts verb "o" then " u " else " o "), " / "]
                let st ← conjRows seps
                  { conj := conjBase, typeKey := "", subKeys := [] }
                  (nodeChildren tbl)
                .ok { id := cid, verb := verb, conjugations := st.conj,
                      html := renderL frag }

/-! ### Article

`Article._parse_html` iterates `self._soup.article.children` while
appending children to the synthetic grouping tags.  BeautifulSoup's
`Tag.append` extracts the child from its parent, so the live list being
iterated shrinks and the list iterator then skips the element that
immediately followed a moved child.  `segmentChildren` reproduces this:
a step reports whether it moved the child, and a move drops the next
element from the scan (that element stays in the document, so it is
still part of `kept`, the children remaining for `get_text`).
-/

/-- Scanner state of the article segmenter. -/
structure SegSt where
  lemaEntry : List HNode
  cfRev : List (List HNode)
  others : List WordE
  kept : List HNode

/-- One child of the article scan.  Returns the new state and whether
the child was moved into a grouping tag.  Classes: `header` and the
article definition class `'j'` go to the lemma entry; `'k'` opens a new
complex form; `'n'` goes to the open complex form, else to the lemma
entry; the base definition class `'m'` (or base note class, already
caught) goes to the open complex form and raises when none is open;
`'l'` is decoded as a cross-reference `Word`. -/
def articleStep (aid : String) (st : SegSt) (n : HNode) :
    Except String (SegSt × Bool) :=
  match n with
  | .textN _ => .ok (st, false)
  | .tagN nm _ classes _ =>
      if nm = "header" then
        .ok ({ st with lemaEntry := st.lemaEntry ++ [n] }, true)
      else if nm = "p" then
        match classes with
        | none => .error "KeyError"
        | some [] => .error "IndexError"
        | some (c0 :: _) =>
            match (pyLower c0).data.head? with
            | none => .error "IndexError"
            | some ch0 =>
                if ch0 = 'j' then
                  .ok ({ st with lemaEntry := st.lemaEntry ++ [n] }, true)
                else if ch0 = 'k' then
                  .ok ({ st with cfRev := [n] :: st.cfRev }, true)
                else if ch0 = 'n' then
                  match st.cfRev with
                  | cur :: rest => .ok ({ st with cfRev := (cur ++ [n]) :: rest }, true)
                  | [] => .ok ({ st with lemaEntry := st.lemaEntry ++ [n] }, true)
                else if ch0 = 'n' ∨ ch0 = 'm' then
                  match st.cfRev with
                  | cur :: rest => .ok ({ st with cfRev := (cur ++ [n]) :: rest }, true)
                  | [] => .error "AttributeError"
                else if ch0 = 'l' then do
                  let w ← parseWord [n] aid
                  .ok ({ st with others := st.others ++ [w] }, false)
                else .ok (st, false)
      else .ok (st, false)

/-- The article child scan with the iterator-skip semantics described
above. -/
def segmentChildren (aid : String) (st : SegSt) :
    List HNode → Except String SegSt
  | [] => .ok st
  | n :: rest => do
      let (st', moved) ← articleStep aid st n
      if moved then
        match rest with
        | [] => .ok st'
        | skipN :: rest' =>
            segmentChildren aid { st' with kept := st'.kept ++ [skipN] } rest'
      else
        segmentChildren aid { st' with kept := st'.kept ++ [n] } rest

mutual
/-- Replace, in one node, the children of the first `article` tag in
document order; the flag reports whether it happened. -/
def replArtN (kept : List HNode) : HNode → HNode × Bool
  | .textN s => (.textN s, false)
  | .tagN nm a c ch =>
      if nm = "article" then (.tagN nm a c kept, true)
      else
        match replArtL kept ch with
        | (ch', done) => (.tagN nm a c ch', done)

/-- Replace the children of the first `article` tag in a forest. -/
def replArtL (kept : List HNode) : List HNode → List HNode × Bool
  | [] => ([], false)
  | n :: r =>
      match replArtN kept n with
      | (n', true) => (n' :: r, true)
      | (n', false) =>
          match replArtL kept r with
          | (r', done) => (n' :: r', done)
end

/-- The `Article` entity. -/
structure ArticleE where
  id : String
  lema : ArticleLemaE
  supplementary_info : List SentenceE
  definitions : List DefinitionE
  complex_forms : List EntryE
  other_entries : List WordE
  conjugations : Option ConjugationE
  raw_text : String
  html : String

/-- `Article._parse_html`: locate the article and its header, segment
the children, decode the lemma entry with the article configuration and
each complex form as a base entry; the raw text is what remains of the
document after the groupings were moved out. -/
def parseArticle (frag : List HNode) : Except String ArticleE := do
  match findName "article" frag with
  | none => .error "Invalid HTML."
  | some artT =>
      if (findName "header" (nodeChildren artT)).isNone then .error "Invalid HTML."
      else do
        let aid := (attrOf artT "id").getD ""
        let st ← segmentChildren aid
          { lemaEntry := [], cfRev := [], others := [], kept := [] }
          (nodeChildren artT)
        let (lemaA, supp, defs) ← processEntry parseArticleLema 'j' st.lemaEntry
        let cfs ← mapME (fun chl =>
          parseEntry [HNode.tagN "complex_form_entry" [] none chl]) st.cfRev.reverse
        .ok { id := aid, lema := lemaA, supplementary_info := supp,
              definitions := defs, complex_forms := cfs,
              other_entries := st.others, conjugations := none,
              raw_text := getTextL (replArtL st.kept frag).1,
              html := renderL frag }

/-- The short-circuiting scan of `any(definition for definition in
self.definitions if definition.is_verb)`: `none` when a definition
without category is reached before any verb definition. -/
def anyVerbDef : List DefinitionE → Option Bool
  | [] => some false
  | d :: ds => (dIsVerb d).bind (fun bv => if bv then some true else anyVerbDef ds)

/-- `Article.is_verb`: a conjugation table is present, or some
definition is classified as a verb. -/
def articleIsVerb (a : ArticleE) : Option Bool :=
  if a.conjugations.isSome then some true
  else anyVerbDef a.definitions

/-! ### SearchResult -/

/-- The `SearchResult` entity.  The related-entries dictionary is keyed
by the `related` capture of the lemma pattern, which can be absent
(Python then uses `None` as the dictionary key). -/
structure SearchResultE where
  title : String
  canonical : String
  meta_description : String
  articles : List ArticleE
  related_entries : List (Option String × List WordE)
  html : String

/-- Is this node the conjugation container
(`find_next_sibling(name='div', attrs={'id': 'conjugacion'})`)? -/
def isConjDiv (n : HNode) : Bool :=
  nodeName n = some "div" && attrOf n "id" = some "conjugacion"

/-- Is this node an `article` tag? -/
def isArticleTag (n : HNode) : Bool := nodeName n = some "article"

/-- `article_tag.find(name='a', class_=re.compile('^e'))` followed by the
href comparison: the first anchor descendant one of whose classes starts
with `e`, tested for `href == '#' + cid`. -/
def articleAnchorMatches (artNode : HNode) (cid : String) : Bool :=
  match findListP (fun nm _ cl =>
      nm = "a" && (cl.elim false (fun l => l.any (pyStarts · "e"))))
      (nodeChildren artNode) with
  | some aT =>
      match attrOf aT "href" with
      | some h => h = "#" ++ cid
      | none => false
  | none => false

/-- The article pass of `SearchResult._parse_html`: each direct
`article` child is decoded, then the first following sibling that is a
conjugation container is decoded and attached when the article's anchor
reference matches its identifier. -/
def articlesPhase : List HNode → Except String (List ArticleE)
  | [] => .ok []
  | n :: rest =>
      if isArticleTag n then do
        let a ← parseArticle [n]
        let a' ←
          match rest.find? isConjDiv with
          | some cd => do
              let c ← parseConjugation [cd]
              pure (if articleAnchorMatches n c.id then
                      { a with conjugations := some c } else a)
          | none => pure a
        let tl ← articlesPhase rest
        .ok (a' :: tl)
      else articlesPhase rest

/-- Is this node a related-entries block
(`find_all(name='div', class_='n1', recursive=False)`)? -/
def isN1Div (n : HNode) : Bool :=
  nodeName n = some "div" && (nodeClasses n).elim false (·.contains "n1")

/-- Insertion into the related-entries dictionary: append to the list of
an existing key, else add a new singleton entry. -/
def relatedInsert (m : List (Option String × List WordE)) (key : Option String)
    (w : WordE) : List (Option String × List WordE) :=
  if m.any (·.1 = key) then
    m.map (fun p => if p.1 = key then (p.1, p.2 ++ [w]) else p)
  else m ++ [(key, [w])]

/-- One direct child of the related-entries pass: an `n1` block with a
link whose text matches the lemma pattern contributes a cross-reference
`Word` under the `related` capture. -/
def relatedStep (acc : List (Option String × List WordE)) (n : HNode) :
    Except String (List (Option String × List WordE)) :=
  if isN1Div n then
    match findName "a" (nodeChildren n) with
    | none => .ok acc
    | some aT =>
        match lemaReMatch (getTextN n) with
        | none => .ok acc
        | some m => do
            let w ← parseWord [aT] ""
            .ok (relatedInsert acc m.related w)
  else .ok acc

/-- The related-entries pass of `SearchResult._parse_html`, run over the
same direct children of the results container. -/
def relatedPhase (children : List HNode) :
    Except String (List (Option String × List WordE)) :=
  foldME relatedStep [] children

/-- The canonical-link extraction of `SearchResult._parse_html` (note
the source matches on an attribute literally named `ref`). -/
def srCanonical (frag : List HNode) : Except String String :=
  match findListP (fun nm attrs _ =>
      nm = "link" && attrs.lookup "ref" = some "canonical") frag with
  | some t =>
      match attrOf t "href" with
      | some h => .ok h
      | none => .error "KeyError"
  | none => .ok ""

/-- The page-title extraction of `SearchResult._parse_html`. -/
def srTitle (frag : List HNode) : String :=
  match findName "title" frag with
  | some t => getTextN t
  | none => ""

/-- The meta-description extraction of `SearchResult._parse_html`. -/
def srMetaDescription (frag : List HNode) : Except String String :=
  match findListP (fun nm attrs _ =>
      nm = "meta" && attrs.lookup "name" = some "description") frag with
  | some t =>
      match attrOf t "content" with
      | some c => .ok c
      | none => .error "KeyError"
  | none => .ok ""

/-- `soup.find(name='div', attrs={'id': 'resultados'})`. -/
def findResultsDiv (frag : List HNode) : Option HNode :=
  findListP (fun nm attrs _ =>
    nm = "div" && attrs.lookup "id" = some "resultados") frag

/-- `SearchResult._parse_html`. -/
def parseSearchResult (frag : List HNode) : Except String SearchResultE := do
  let canonical ← srCanonical frag
  let title := srTitle frag
  let metaD ← srMetaDescription frag
  match findResultsDiv frag with
  | none =>
      .ok { title := title, canonical := canonical, meta_description := metaD,
            articles := [], related_entries := [], html := renderL frag }
  | some rd => do
      let arts ← articlesPhase (nodeChildren rd)
      let rel ← relatedPhase (nodeChildren rd)
      .ok { title := title, canonical := canonical, meta_description := metaD,
            articles := arts, related_entries := rel, html := renderL frag }

/-! ### The `to_dict` representations

Each `to_dict(extended=...)` method is modelled as a function to an
insertion-ordered dictionary.  `Definition.to_dict` (and everything
containing definitions) evaluates the classifiers and the category's
`to_dict`, which raise when no category was parsed, hence the `Option`
results there.
-/

/-- `Abbr.to_dict`. -/
def abbrToDict (a : AbbrE) (ext : Bool) : List (String × JVal) :=
  (if ext then [("html", .s a.html)] else []) ++
  [("abbr", .s a.abbr)] ++
  (if ext then [("class", .s a.class_)] else []) ++
  [("text", .s a.text)]

/-- `Word.to_dict`. -/
def wordToDict (w : WordE) (ext : Bool) : List (String × JVal) :=
  (if ext then [("html", .s w.html)] else []) ++
  [("text", .s w.text)] ++
  (if w.is_active_link then [("link", .s (wordLink w))] else []) ++
  (if ext then
    [("is_active_link", .b w.is_active_link)] ++
    (if !w.is_active_link then [("link", .s (wordLink w))] else [])
  else [])

/-- `component.to_dict` inside `Sentence.to_dict` (strings stay plain). -/
def compToDict (ext : Bool) : SComp → JVal
  | .ab a => .obj (abbrToDict a ext)
  | .wd w => .obj (wordToDict w ext)
  | .txt s => .s s

/-- `Sentence.to_dict`. -/
def sentenceToDict (s : SentenceE) (ext : Bool) : List (String × JVal) :=
  (if ext then [("html", .s s.html)] else []) ++
  [("text", .s (sentenceText s))] ++
  (if ext then [("components", .arr (s.components.map (compToDict ext)))] else [])

/-- `Definition.to_dict`; `none` models the `AttributeError` raised when
the definition has no category. -/
def defToDict (d : DefinitionE) (ext : Bool) : Option (List (String × JVal)) := do
  let cat ← d.category
  let adjB ← dIsAdjective d
  let advB ← dIsAdverb d
  let nounB ← dIsNoun d
  let pronB ← dIsPronoun d
  let verbB ← dIsVerb d
  pure ((if ext then [("html", .s d.html), ("id", .s d.id)] else []) ++
        [("index", .nat d.index),
         ("category", .obj (abbrToDict cat ext)),
         ("is", .obj [("adjective", .b adjB), ("adverb", .b advB),
                      ("noun", .b nounB), ("pronoun", .b pronB),
                      ("verb", .b verbB)])] ++
        (if ext then [("first_of_category", .b d.first_of_category)] else []) ++
        [("abbreviations", .arr (d.abbreviations.map (fun a => .obj (abbrToDict a ext)))),
         ("sentence", .obj (sentenceToDict d.sentence ext)),
         ("examples", .arr (d.examples.map (fun e => .obj (sentenceToDict e ext))))] ++
        (if ext then [("raw_text", .s d.raw_text)] else []))

/-- `EntryLema.to_dict`. -/
def entryLemaToDict (l : EntryLemaE) (ext : Bool) : List (String × JVal) :=
  (if ext then [("html", .s l.html)] else []) ++
  [("lema", .s l.lema)] ++
  (if ext then [("id", .s l.id), ("is_foreign", .b l.is_foreign)] else [])

/-- `ArticleLema.to_dict`. -/
def articleLemaToDict (l : ArticleLemaE) (ext : Bool) : List (String × JVal) :=
  (if ext then [("html", .s l.html)] else []) ++
  [("lema", .s l.lema)] ++
  (if ext then [("id", .s l.id), ("is_foreign", .b l.is_foreign)] else []) ++
  [("index", .nat l.index), ("female_suffix", .s l.female_suffix)] ++
  (if ext then
    [("is_acronym", .b (lemaIsAcronym l)), ("is_prefix", .b (lemaIsPrefix l)),
     ("is_suffix", .b (lemaIsSuffix l))]
  else [])

/-- `Entry.to_dict`. -/
def entryToDict (e : EntryE) (ext : Bool) : Option (List (String × JVal)) := do
  let defs ← mapMO (defToDict · ext) e.definitions
  pure ((if ext then [("html", .s e.html)] else []) ++
        [("lema", .obj (entryLemaToDict e.lema ext)),
         ("supplementary_info",
            .arr (e.supplementary_info.map (fun s => .obj (sentenceToDict s ext)))),
         ("definitions", .arr (defs.map .obj))] ++
        (if ext then [("raw_text", .s e.raw_text)] else []))

/-- `Conjugation.to_dict`. -/
def conjToDict (c : ConjugationE) (ext : Bool) : List (String × JVal) :=
  (if ext then [("html", .s c.html), ("id", .s c.id)] else []) ++
  [("verb", .s c.verb), ("conjugations", .obj c.conjugations)]

/-- `Article.to_dict`. -/
def articleToDict (a : ArticleE) (ext : Bool) : Option (List (String × JVal)) := do
  let iv ← articleIsVerb a
  let defs ← mapMO (defToDict · ext) a.definitions
  let cfs ← mapMO (entryToDict · ext) a.complex_forms
  pure ((if ext then [("html", .s a.html)] else []) ++
        [("id", .s a.id),
         ("lema", .obj (articleLemaToDict a.lema ext)),
         ("supplementary_info",
            .arr (a.supplementary_info.map (fun s => .obj (sentenceToDict s ext)))),
         ("is", .obj [("verb", .b iv)]),
         ("definitions", .arr (defs.map .obj)),
         ("complex_forms", .arr (cfs.map .obj)),
         ("other_entries", .arr (a.other_entries.map (fun w => .obj (wordToDict w ext))))] ++
        (match a.conjugations with
         | some c => [("conjugations", .obj (conjToDict c ext))]
         | none => []) ++
        (if ext then [("raw_text", .s a.raw_text)] else []))

/-- Rendering of a related-entries dictionary key; Python admits the
`None` object as a dictionary key, written here as its display text. -/
def optKeyStr : Option String → String
  | some s => s
  | none => "None"

/-- The unconditional keys of `SearchResult.to_dict`. -/
def srDictBase (sr : SearchResultE) (ext : Bool) : List (String × JVal) :=
  (if ext then [("html", .s sr.html)] else []) ++
  [("title", .s sr.title)] ++
  (if ext then [("canonical", .s sr.canonical),
                ("meta_description", .s sr.meta_description)] else [])

/-- `SearchResult.to_dict`. -/
def srToDict (sr : SearchResultE) (ext : Bool) : Option (List (String × JVal)) := do
  let base := srDictBase sr ext
  if !sr.articles.isEmpty then do
    let arts ← mapMO (articleToDict · ext) sr.articles
    pure (base ++ [("articles", .arr (arts.map .obj))])
  else if !sr.related_entries.isEmpty then
    pure (base ++ [("related_entries", .obj (sr.related_entries.map (fun p =>
      (optKeyStr p.1, JVal.arr (p.2.map (fun w => .obj (wordToDict w ext)))))))])
  else pure base

/-! ## Lemmas about the dictionary primitives -/

lemma alookup_alistSet_self (l : List (String × JVal)) (k : String) (v : JVal) :
    alookup (alistSet l k v) k = some v := by
  induction l with
  | nil => simp [alistSet, alookup]
  | cons hd t ih =>
      obtain ⟨a, w⟩ := hd
      by_cases hk : k = a
      · simp [alistSet, alookup, hk]
      · simp [alistSet, alookup, hk, ih]

lemma alookup_alistSet_ne (l : List (String × JVal)) (k k' : String) (v : JVal)
    (h : k' ≠ k) : alookup (alistSet l k v) k' = alookup l k' := by
  induction l with
  | nil => simp [alistSet, alookup, h]
  | cons hd t ih =>
      obtain ⟨a, w⟩ := hd
      by_cases hk : k = a
      · subst hk
        simp [alistSet, alookup, h]
      · by_cases hk' : k' = a
        · simp [alistSet, alookup, hk, hk']
        · simp [alistSet, alookup, hk, hk', ih]

lemma alookup_dictUpdate_none (old new : List (String × JVal)) (p : String)
    (h : alookup new p = none) : alookup (dictUpdate old new) p = alookup old p := by
  induction new generalizing old with
  | nil => simp [dictUpdate]
  | cons kv t ih =>
      obtain ⟨k, v⟩ := kv
      have hne : ¬(p = k) := by
        intro he
        simp [alookup, he] at h
      have ht : alookup t p = none := by simpa [alookup, hne] using h
      rw [dictUpdate, ih _ ht, alookup_alistSet_ne _ _ _ _ hne]

lemma alookup_dictUpdate_isSome_left (old new : List (String × JVal)) (p : String)
    (h : (alookup old p).isSome) : (alookup (dictUpdate old new) p).isSome := by
  induction new generalizing old with
  | nil => simpa [dictUpdate] using h
  | cons kv t ih =>
      obtain ⟨k, v⟩ := kv
      rw [dictUpdate]
      apply ih
      by_cases hp : p = k
      · subst hp
        simp [alookup_alistSet_self]
      · rwa [alookup_alistSet_ne _ _ _ _ hp]

lemma alookup_dictUpdate_isSome_right (old new : List (String × JVal)) (p : String)
    (h : (alookup new p).isSome) : (alookup (dictUpdate old new) p).isSome := by
  induction new generalizing old with
  | nil => simp [alookup] at h
  | cons kv t ih =>
      obtain ⟨k, v⟩ := kv
      rw [dictUpdate]
      by_cases hp : p = k
      · subst hp
        apply alookup_dictUpdate_isSome_left
        simp [alookup_alistSet_self]
      · have ht : (alookup t p).isSome := by simpa [alookup, hp] using h
        exact ih _ ht

/-- C5: for the nested-map write used by the conjugation decoder
(`nested_dictionary_set` at its default flags), whenever the key path
leads to an existing value: if that value and the new value are both
dicts, the write merges the new dict into the existing one — keys absent
from the new dict keep their previous values and keys of the new dict
are present afterwards — and if either of the two is not a dict, the
write replaces the existing value. -/
theorem nested_dictionary_set_merge_law
    (d : List (String × JVal)) (ks : List String) (v old : JVal)
    (h2 : lookupPath d ks = some old) :
    (∀ o nw, old = .obj o → v = .obj nw →
       ((nested_dictionary_set d ks v).map (fun d' => lookupPath d' ks)) =
         .ok (some (.obj (dictUpdate o nw))) ∧
       (∀ p, alookup nw p = none → alookup (dictUpdate o nw) p = alookup o p) ∧
       (∀ p, (alookup nw p).isSome → (alookup (dictUpdate o nw) p).isSome)) ∧
    (((∀ o, old ≠ .obj o) ∨ (∀ nw, v ≠ .obj nw)) →
       ((nested_dictionary_set d ks v).map (fun d' => lookupPath d' ks)) =
         .ok (some v)) := by
  induction ks generalizing d with
  | nil => simp [lookupPath] at h2
  | cons k rest ih =>
      cases rest with
      | nil =>
          simp only [lookupPath] at h2
          constructor
          · rintro o nw rfl rfl
            refine ⟨?_, fun p hp => alookup_dictUpdate_none o nw p hp,
                    fun p hp => alookup_dictUpdate_isSome_right o nw p hp⟩
            simp [nested_dictionary_set, h2, lookupPath, Except.map,
                  alookup_alistSet_self]
          · intro hcase
            cases old with
            | obj o =>
                have hv : ∀ nw, v ≠ .obj nw := by
                  rcases hcase with h | h
                  · exact absurd rfl (h o)
                  · exact h
                cases v with
                | obj nw => exact absurd rfl (hv nw)
                | s x => simp [nested_dictionary_set, h2, lookupPath, Except.map,
                               alookup_alistSet_self]
                | nat x => simp [nested_dictionary_set, h2, lookupPath, Except.map,
                                 alookup_alistSet_self]
                | b x => simp [nested_dictionary_set, h2, lookupPath, Except.map,
                               alookup_alistSet_self]
                | arr x => simp [nested_dictionary_set, h2, lookupPath, Except.map,
                                 alookup_alistSet_self]
            | s x => simp [nested_dictionary_set, h2, lookupPath, Except.map,
                           alookup_alistSet_self]
            | nat x => simp [nested_dictionary_set, h2, lookupPath, Except.map,
                             alookup_alistSet_self]
            | b x => simp [nested_dictionary_set, h2, lookupPath, Except.map,
                           alookup_alistSet_self]
            | arr x => simp [nested_dictionary_set, h2, lookupPath, Except.map,
                             alookup_alistSet_self]
      | cons k2 rest' =>
          cases ha : alookup d k with
          | none => simp [lookupPath, ha] at h2
          | some w =>
              cases w with
              | obj sub =>
                  have h2' : lookupPath sub (k2 :: rest') = some old := by
                    simpa [lookupPath, ha] using h2
                  have IH := ih sub h2'
                  constructor
                  · rintro o nw rfl rfl
                    obtain ⟨IH1, IH2, IH3⟩ := IH.1 o nw rfl rfl
                    refine ⟨?_, IH2, IH3⟩
                    cases hns : nested_dictionary_set sub (k2 :: rest') (.obj nw) with
                    | error e => rw [hns] at IH1; simp [Except.map] at IH1
                    | ok sub' =>
                        rw [hns] at IH1
                        simp only [Except.map] at IH1
                        have IH1' : lookupPath sub' (k2 :: rest') =
                            some (.obj (dictUpdate o nw)) := by
                          simpa using IH1
                        simp [nested_dictionary_set, ha, hns, Except.map, bind,
                              Except.bind, lookupPath, alookup_alistSet_self, IH1']
                  · intro hcase
                    have IHr := IH.2 hcase
                    cases hns : nested_dictionary_set sub (k2 :: rest') v with
                    | error e => rw [hns] at IHr; simp [Except.map] at IHr
                    | ok sub' =>
                        rw [hns] at IHr
                        simp only [Except.map] at IHr
                        have IHr' : lookupPath sub' (k2 :: rest') = some v := by
                          simpa using IHr
                        simp [nested_dictionary_set, ha, hns, Except.map, bind,
                              Except.bind, lookupPath, alookup_alistSet_self, IHr']
              | s x => simp [lookupPath, ha] at h2
              | nat x => simp [lookupPath, ha] at h2
              | b x => simp [lookupPath, ha] at h2
              | arr x => simp [lookupPath, ha] at h2

/-- Witness for C5 at a concrete conjugation-shaped input: writing the
second-person form into a tense dict that already holds a first-person
form merges rather than overwrites. -/
theorem nested_dictionary_set_merge_law_witness :
    ((nested_dictionary_set
        [("Indicativo", .obj [("Presente", .obj [("1s", .s "amo")])])]
        ["Indicativo", "Presente"] (.obj [("2s", .s "amas")])).map
      (fun d' => lookupPath d' ["Indicativo", "Presente"])) =
      .ok (some (.obj (dictUpdate [("1s", JVal.s "amo")] [("2s", JVal.s "amas")]))) ∧
    alookup (dictUpdate [("1s", JVal.s "amo")] [("2s", JVal.s "amas")]) "1s" =
      alookup [("1s", JVal.s "amo")] "1s" := by
  have h := (nested_dictionary_set_merge_law
    [("Indicativo", .obj [("Presente", .obj [("1s", .s "amo")])])]
    ["Indicativo", "Presente"] (.obj [("2s", .s "amas")])
    (.obj [("1s", .s "amo")]) rfl).1
    [("1s", .s "amo")] [("2s", .s "amas")] rfl rfl
  exact ⟨h.1, h.2.1 "1s" rfl⟩

/-- C2: evaluation of the `ArticleLema` raw-headword decoding at the
spec's reference inputs.  The compound lemma and the acronym decode as
the spec states; but on `"pre-"` the code yields `is_prefix = false`
and `is_suffix = true`, and on `"-mente"` it yields `is_prefix = true`
and `is_suffix = false`: `is_prefix` tests `startswith('-')` and
`is_suffix` tests `endswith('-')`, the reverse of the dictionary's
hyphen convention for prefixes and suffixes. -/
theorem article_lema_decode_eval :
    (articleLemaFromRaw "correr2, a (correrse)").lema = "correr" ∧
    (articleLemaFromRaw "correr2, a (correrse)").index = 2 ∧
    (articleLemaFromRaw "correr2, a (correrse)").female_suffix = "a" ∧
    (lemaReMatch "correr2, a (correrse)").map (fun m => m.related) =
      some (some "correrse") ∧
    lemaIsAcronym (articleLemaFromRaw "ONU") = true ∧
    lemaIsPrefix (articleLemaFromRaw "pre-") = false ∧
    lemaIsSuffix (articleLemaFromRaw "pre-") = true ∧
    lemaIsPrefix (articleLemaFromRaw "-mente") = true ∧
    lemaIsSuffix (articleLemaFromRaw "-mente") = false :=
  ⟨rfl, rfl, rfl, rfl, rfl, rfl, rfl, rfl, rfl⟩

/-- C6 (amended): with a category present every classifier evaluates to
a Boolean without raising; with no category every classifier raises
(`none`) instead of returning `false`. -/
theorem definition_classifiers_totality (d : DefinitionE) :
    (d.category.isSome →
      (dIsAdjective d).isSome ∧ (dIsAdverb d).isSome ∧ (dIsNoun d).isSome ∧
      (dIsPronoun d).isSome ∧ (dIsVerb d).isSome) ∧
    (d.category = none →
      dIsAdjective d = none ∧ dIsAdverb d = none ∧ dIsNoun d = none ∧
      dIsPronoun d = none ∧ dIsVerb d = none) := by
  cases hc : d.category <;>
    simp [dIsAdjective, dIsAdverb, dIsNoun, dIsPronoun, dIsVerb, hc]

/-- An interjection definition paragraph: class `j`, category
abbreviation `interj.`. -/
def interjDefFrag : List HNode :=
  [.tagN "p" [("id", "d1")] (some ["j"])
    [.tagN "span" [] (some ["n_acep"]) [.textN "1."],
     .tagN "abbr" [("title", "interjección")] (some ["d"]) [.textN "interj."],
     .textN " una voz."]]

/-- Counterexample for C6: a constructed definition whose category is
present (`interj.`) on which all five classifiers evaluate to `false`,
so no classifier — rather than exactly one — is true. -/
theorem definition_classifiers_not_exactly_one :
    ((parseDefinition interjDefFrag).map (fun d =>
      (d.category.map (fun a => a.abbr),
       [dIsAdjective d, dIsAdverb d, dIsNoun d, dIsPronoun d, dIsVerb d]))) =
    .ok (some "interj.",
         [some false, some false, some false, some false, some false]) := rfl

/-- A definition with a category, used to instantiate C6. -/
def defWithCategory : DefinitionE :=
  { id := "", index := 1,
    category := some { abbr := "adv.", class_ := "d", text := "adverbio", html := "" },
    first_of_category := true, abbreviations := [],
    sentence := { components := [], html := "" }, examples := [],
    raw_text := "", html := "" }

/-- A definition without a category, used to instantiate C6. -/
def defNoCategory : DefinitionE :=
  { id := "", index := 0, category := none, first_of_category := false,
    abbreviations := [], sentence := { components := [], html := "" },
    examples := [], raw_text := "", html := "" }

/-- Witness for C6 at concrete definitions with and without a
category. -/
theorem definition_classifiers_totality_witness :
    ((dIsAdjective defWithCategory).isSome ∧ (dIsAdverb defWithCategory).isSome ∧
     (dIsNoun defWithCategory).isSome ∧ (dIsPronoun defWithCategory).isSome ∧
     (dIsVerb defWithCategory).isSome) ∧
    (dIsAdjective defNoCategory = none ∧ dIsAdverb defNoCategory = none ∧
     dIsNoun defNoCategory = none ∧ dIsPronoun defNoCategory = none ∧
     dIsVerb defNoCategory = none) :=
  ⟨(definition_classifiers_totality defWithCategory).1 rfl,
   (definition_classifiers_totality defNoCategory).2 rfl⟩

/-- `Except.isOk`, spelled out. -/
def isOkE {α : Type} : Except String α → Bool
  | .ok _ => true
  | .error _ => false

/-- C7 (amended): when `Abbr` construction succeeds, the expanded text
equals the value of the `title` attribute of the first `abbr` element
(which may be the empty string), and when that element has no `title`
attribute, construction fails. -/
theorem abbr_text_from_title (frag : List HNode) :
    (∀ r, parseAbbr frag = .ok r →
       ((findName "abbr" frag).bind (fun ab => attrOf ab "title")) = some r.text) ∧
    (∀ ab, findName "abbr" frag = some ab → attrOf ab "title" = none →
       isOkE (parseAbbr frag) = false) := by
  constructor
  · intro r hr
    cases hf : findName "abbr" frag with
    | none => simp [parseAbbr, hf] at hr
    | some ab =>
        cases hcls : nodeClasses ab with
        | none =>
            cases ht : attrOf ab "title" with
            | none => simp [parseAbbr, hf, hcls, ht] at hr
            | some t =>
                simp only [parseAbbr, hf, hcls, ht] at hr
                cases hr
                simpa using ht
        | some l =>
            cases l with
            | nil => simp [parseAbbr, hf, hcls, bind, Except.bind] at hr
            | cons c0 cs =>
                cases ht : attrOf ab "title" with
                | none => simp [parseAbbr, hf, hcls, ht] at hr
                | some t =>
                    simp only [parseAbbr, hf, hcls, ht] at hr
                    cases hr
                    simpa using ht
  · intro ab hf ht
    cases hcls : nodeClasses ab with
    | none => simp [parseAbbr, hf, hcls, ht, isOkE]
    | some l =>
        cases l with
        | nil => simp [parseAbbr, hf, hcls, isOkE, bind, Except.bind]
        | cons c0 cs => simp [parseAbbr, hf, hcls, ht, isOkE]

/-- A complete abbreviation fragment. -/
def abbrFragOk : List HNode :=
  [.tagN "abbr" [("title", "transitivo")] (some ["d"]) [.textN "tr."]]

/-- An abbreviation fragment whose `abbr` element has no `title`. -/
def abbrFragNoTitle : List HNode :=
  [.tagN "abbr" [] (some ["d"]) [.textN "tr."]]

/-- Witness for C7 at concrete fragments: a present `title` becomes the
text, and a missing `title` fails construction. -/
theorem abbr_text_from_title_witness :
    ((findName "abbr" abbrFragOk).bind (fun ab => attrOf ab "title")) =
      some "transitivo" ∧
    isOkE (parseAbbr abbrFragNoTitle) = false :=
  ⟨(abbr_text_from_title abbrFragOk).1
      { abbr := "tr.", class_ := "d", text := "transitivo",
        html := "<abbr title=\"transitivo\" class=\"d\">tr.</abbr>" } rfl,
   (abbr_text_from_title abbrFragNoTitle).2
      (.tagN "abbr" [] (some ["d"]) [.textN "tr."]) rfl rfl⟩

/-- An abbreviation fragment whose `title` attribute is present but
empty. -/
def abbrFragEmptyTitle : List HNode :=
  [.tagN "abbr" [("title", "")] (some ["d"]) [.textN "tr."]]

/-- Counterexample for C7: construction succeeds on an empty `title`
attribute and the expanded text of the resulting abbreviation is the
empty string. -/
theorem abbr_empty_expansion_accepted :
    (parseAbbr abbrFragEmptyTitle).map (fun r => r.text) = .ok "" := rfl

/-! ## The article segmenter before a complex-form boundary (C1, C10) -/

/-- An article headword header of class `f`. -/
def headerCasa : HNode := .tagN "header" [] (some ["f"]) [.textN "casa"]

/-- A paragraph with the base-entry definition class `m`. -/
def paraM : HNode := .tagN "p" [] (some ["m"]) [.textN "una forma."]

/-- A paragraph with the note class `n`. -/
def paraN : HNode := .tagN "p" [] (some ["n"]) [.textN "nota simple"]

/-- A paragraph with no class attribute. -/
def paraNoClass : HNode := .tagN "p" [] none [.textN "x"]

/-- The empty segmenter state. -/
def segInit : SegSt := { lemaEntry := [], cfRev := [], others := [], kept := [] }

/-- Counterexample for C1: an article whose direct children are the
header, a whitespace text node and a base-class (`m`) definition
paragraph — no complex-form boundary anywhere — fails to construct
(`complex_form_tag` is `None` when the paragraph is routed to it),
instead of succeeding with the paragraph attached to the lemma entry. -/
theorem article_defn_before_boundary_crashes :
    parseArticle [.tagN "article" [("id", "a1")] none
      [headerCasa, .textN "\n", paraM]] = .error "AttributeError" := rfl

/-- C1 (amended): while no complex-form boundary has been opened, a
paragraph with the base note class `n` that the child scan reaches is
routed to the lemma entry (and, end to end, becomes a supplementary-info
sentence of the article's own entry), but a paragraph with the base
definition class `m` that the scan reaches aborts article construction
with an error. -/
theorem article_pre_boundary_note_vs_defn
    (aid : String) (st : SegSt) (attrs : List (String × String)) (c0 : String)
    (cls : List String) (ch : List HNode) (post : List HNode)
    (hopen : st.cfRev = []) :
    ((pyLower c0).data.head? = some 'm' →
       segmentChildren aid st (.tagN "p" attrs (some (c0 :: cls)) ch :: post) =
         .error "AttributeError") ∧
    ((pyLower c0).data.head? = some 'n' →
       segmentChildren aid st (.tagN "p" attrs (some (c0 :: cls)) ch :: post) =
         segmentChildren aid
           { st with
               lemaEntry := st.lemaEntry ++ [.tagN "p" attrs (some (c0 :: cls)) ch],
               kept := st.kept ++ post.take 1 }
           (post.drop 1)) ∧
    (∀ (hattrs : List (String × String)) (hcls : Option (List String))
       (hch : List HNode) (t : String) (artAttrs : List (String × String))
       (artCls : Option (List String)) (L : ArticleLemaE) (S : SentenceE),
       parseArticleLema [.tagN "header" hattrs hcls hch] = .ok L →
       (pyLower c0).data.head? = some 'n' →
       parseSentence [.tagN "p" attrs (some (c0 :: cls)) ch] [] = .ok S →
       (parseArticle [.tagN "article" artAttrs artCls
           [.tagN "header" hattrs hcls hch, .textN t,
            .tagN "p" attrs (some (c0 :: cls)) ch]]).map
         (fun a => (a.supplementary_info, a.definitions.length,
                    a.complex_forms.length)) = .ok ([S], 0, 0)) := by
  refine ⟨?_, ?_, ?_⟩
  · intro hm
    simp [segmentChildren, articleStep, hm, hopen, bind, Except.bind]
  · intro hn
    cases post with
    | nil =>
        simp [segmentChildren, articleStep, hn, hopen, bind, Except.bind]
    | cons pN rest' =>
        simp [segmentChildren, articleStep, hn, hopen, bind, Except.bind]
  · intro hattrs hcls hch t artAttrs artCls L S hL hn hS
    simp [parseArticle, findName, findListP, findNodeP, nodeChildren,
          segmentChildren, articleStep, processEntry, entryStep, foldME, mapME,
          hL, hn, hS, bind, Except.bind, Except.map, hopen, Except.toOption,
          pure, Except.pure]

/-- Witness for C1 at concrete inputs: the `m` paragraph crashes the
scan and the `n` paragraph ends up as the article's own supplementary
note. -/
theorem article_pre_boundary_note_vs_defn_witness :
    segmentChildren "" segInit [paraM] = .error "AttributeError" ∧
    (parseArticle [.tagN "article" [] none [headerCasa, .textN "\n", paraN]]).map
      (fun a => (a.supplementary_info, a.definitions.length,
                 a.complex_forms.length)) =
      .ok ([{ components := [.txt "nota simple"],
              html := "<p class=\"n\">nota simple</p>" }], 0, 0) :=
  ⟨(article_pre_boundary_note_vs_defn "" segInit [] "m" [] [.textN "una forma."]
      [] rfl).1 rfl,
   (article_pre_boundary_note_vs_defn "" segInit [] "n" [] [.textN "nota simple"]
      [] rfl).2.2 [] (some ["f"]) [.textN "casa"] "\n" [] none
      { id := "", is_foreign := false, lema := "casa", index := 0,
        female_suffix := "",
        html := "<header class=\"f\">casa</header>" }
      { components := [.txt "nota simple"],
        html := "<p class=\"n\">nota simple</p>" } rfl rfl rfl⟩

/-- Counterexample for C10: an article whose classless `<p>` direct
child immediately follows the header is skipped by the child scan (the
header was moved into the lemma-entry grouping, so the live iterator
steps over the paragraph), and Article construction succeeds instead of
raising. -/
theorem article_classless_p_can_be_skipped :
    nodeName paraNoClass = some "p" ∧ nodeClasses paraNoClass = none ∧
    (parseArticle [.tagN "article" [] none [headerCasa, paraNoClass]]).map
      (fun a => a.lema.lema) = .ok "casa" := ⟨rfl, rfl, rfl⟩

/-- C10 (amended): a classless direct `<p>` child that the article child
scan actually reaches aborts Article construction (the class attribute
access raises), while the base Entry decoder skips the same child: its
scan step leaves the accumulated state unchanged, whether or not a lemma
has already been claimed. -/
theorem article_classless_p_strict (aid : String) (st : SegSt)
    (attrs : List (String × String)) (ch : List HNode) (post : List HNode) :
    segmentChildren aid st (.tagN "p" attrs none ch :: post) = .error "KeyError" ∧
    (∀ acc : Option EntryLemaE × List SentenceE × List DefinitionE,
       entryStep parseEntryLema 'm' acc (.tagN "p" attrs none ch) = .ok acc) := by
  constructor
  · simp [segmentChildren, articleStep, bind, Except.bind]
  · intro acc
    obtain ⟨l, supp, defs⟩ := acc
    cases l with
    | none =>
        simp [entryStep, parseEntryLema, parseLemaWith, findName, findListP,
              findNodeP, nodeClasses, Except.toOption, pure, Except.pure,
              bind, Except.bind]
    | some lv =>
        simp [entryStep, pure, Except.pure, bind, Except.bind]

/-- Witness for C10 at a concrete classless paragraph. -/
theorem article_classless_p_strict_witness :
    segmentChildren "" segInit [paraNoClass] = .error "KeyError" ∧
    entryStep parseEntryLema 'm' (none, [], []) paraNoClass = .ok (none, [], []) :=
  ⟨(article_classless_p_strict "" segInit [] [.textN "x"] []).1,
   (article_classless_p_strict "" segInit [] [.textN "x"] []).2 (none, [], [])⟩

/-! ## The search-result aggregator (C3, C4, C9) -/

/-- A decodable article: headword `casa`, one `interj.` definition, and
an anchor of class `e2` referencing `#conjugacionv1`. -/
def articleCasa : HNode :=
  .tagN "article" [("id", "a1")] none
    [headerCasa, .textN "\n",
     .tagN "p" [] (some ["j"])
       [.tagN "abbr" [("title", "interjección")] (some ["d"]) [.textN "interj."],
        .tagN "a" [("href", "#conjugacionv1")] (some ["e2"]) [.textN "Conjugación"]]]

/-- A related-entries block whose text matches the lemma pattern with
related capture `casa`. -/
def n1Casa : HNode :=
  .tagN "div" [] (some ["n1"])
    [.tagN "a" [("href", "/casa")] none [.textN "casar"], .textN " (casa)"]

/-- A results container holding both an article and a related-entries
block. -/
def resultsDivBoth : HNode :=
  .tagN "div" [("id", "resultados")] none [articleCasa, .textN "\n", n1Casa]

/-- A page whose results container holds both kinds of children. -/
def pageBoth : List HNode := [resultsDivBoth]

/-- The cross-reference word decoded from the `n1Casa` block. -/
def relWordCasar : WordE :=
  { text := "casar", href := "/casa", parent_href := "", is_active_link := true,
    html := "<a href=\"/casa\">casar</a>" }

/-- Counterexample for C3: on a page holding both an article and a
matching related-entries block, construction succeeds with BOTH
collections populated — one decoded article and one related-entries
group. -/
theorem searchresult_both_collections_populated :
    (parseSearchResult pageBoth).map (fun st =>
      (st.articles.length, st.related_entries.map (fun p => p.1))) =
    .ok (1, [some "casa"]) := rfl

lemma relatedStep_not_n1 (acc : List (Option String × List WordE)) (n : HNode)
    (h : isN1Div n = false) : relatedStep acc n = .ok acc := by
  simp [relatedStep, h]

lemma foldME_relatedStep_filter_articles (l : List HNode) :
    ∀ acc, foldME relatedStep acc (l.filter (fun n => !isArticleTag n)) =
      foldME relatedStep acc l := by
  induction l with
  | nil => intro acc; rfl
  | cons n r ih =>
      intro acc
      by_cases ha : isArticleTag n
      · have hart : nodeName n = some "article" := by
          simpa [isArticleTag] using ha
        have hstep : relatedStep acc n = .ok acc := by
          apply relatedStep_not_n1
          simp [isN1Div, hart]
        simp [List.filter_cons, ha, foldME, hstep, bind, Except.bind, ih]
      · cases hs : relatedStep acc n with
        | error e => simp [List.filter_cons, ha, foldME, hs, bind, Except.bind]
        | ok acc' => simp [List.filter_cons, ha, foldME, hs, bind, Except.bind, ih]

lemma articlesPhase_of_no_articles (l : List HNode)
    (h : ∀ n ∈ l, isArticleTag n = false) : articlesPhase l = .ok [] := by
  induction l with
  | nil => rfl
  | cons n r ih =>
      have hn : isArticleTag n = false := h n (by simp)
      have hr : ∀ m ∈ r, isArticleTag m = false := fun m hm => h m (by simp [hm])
      simp [articlesPhase, hn, ih hr]

/-- C3 (amended): the related-entries scan of the aggregator runs
unconditionally over the results container's direct children: the
related entries of a decoded page are exactly what the related pass
produces, they are unchanged when every direct `article` child is
removed from the container, and the article pass on the article-free
container yields no articles — so the two collections are gathered
independently, not mutually exclusively. -/
theorem related_entries_collected_unconditionally
    (frag : List HNode) (rel : List (Option String × List WordE)) (rd : HNode)
    (h : (parseSearchResult frag).map (fun st => st.related_entries) = .ok rel)
    (hrd : findResultsDiv frag = some rd) :
    relatedPhase (nodeChildren rd) = .ok rel ∧
    relatedPhase ((nodeChildren rd).filter (fun n => !isArticleTag n)) = .ok rel ∧
    articlesPhase ((nodeChildren rd).filter (fun n => !isArticleTag n)) = .ok [] := by
  cases hc : srCanonical frag with
  | error e => simp [parseSearchResult, hc, bind, Except.bind, Except.map] at h
  | ok c =>
      cases hm : srMetaDescription frag with
      | error e =>
          simp [parseSearchResult, hc, hm, bind, Except.bind, Except.map] at h
      | ok m =>
          cases hA : articlesPhase (nodeChildren rd) with
          | error e =>
              simp [parseSearchResult, hc, hm, hrd, hA, bind, Except.bind,
                    Except.map] at h
          | ok arts =>
              cases hR : relatedPhase (nodeChildren rd) with
              | error e =>
                  simp [parseSearchResult, hc, hm, hrd, hA, hR, bind,
                        Except.bind, Except.map] at h
              | ok r =>
                  have hrel : r = rel := by
                    simpa [parseSearchResult, hc, hm, hrd, hA, hR, bind,
                           Except.bind, Except.map] using h
                  subst hrel
                  refine ⟨rfl, ?_, ?_⟩
                  · rw [relatedPhase, foldME_relatedStep_filter_articles]
                    exact hR
                  · exact articlesPhase_of_no_articles _
                      (fun n hn => by
                        simp only [List.mem_filter, Bool.not_eq_true'] at hn
                        exact hn.2)

/-- Witness for C3 at the concrete double page: the related pass yields
the collected group whether or not the article child is present, and the
article-free container carries no articles. -/
theorem related_entries_collected_unconditionally_witness :
    relatedPhase (nodeChildren resultsDivBoth) = .ok [(some "casa", [relWordCasar])] ∧
    articlesPhase ((nodeChildren resultsDivBoth).filter (fun n => !isArticleTag n)) =
      .ok [] :=
  ⟨(related_entries_collected_unconditionally pageBoth
      [(some "casa", [relWordCasar])] resultsDivBoth rfl rfl).1,
   (related_entries_collected_unconditionally pageBoth
      [(some "casa", [relWordCasar])] resultsDivBoth rfl rfl).2.2⟩

/-- A conjugation container whose inner article id `v1` makes its
identifier `conjugacionv1`; it has no table, so its dictionary is
empty. -/
def conjDivV1 : HNode :=
  .tagN "div" [("id", "conjugacion")] none
    [.tagN "article" [("id", "v1")] none
      [.tagN "header" [] none [.tagN "b" [] none [.textN "cantar"]]]]

/-- Like `articleCasa`, but the anchor referencing the conjugation has
class `x`, not a class starting with `e`. -/
def articleCasaX : HNode :=
  .tagN "article" [("id", "a1")] none
    [headerCasa, .textN "\n",
     .tagN "p" [] (some ["j"])
       [.tagN "abbr" [("title", "interjección")] (some ["d"]) [.textN "interj."],
        .tagN "a" [("href", "#conjugacionv1")] (some ["x"]) [.textN "Conjugación"]]]

/-- A page with `articleCasaX` immediately followed by the conjugation
container. -/
def pageNonEAnchor : List HNode :=
  [.tagN "div" [("id", "resultados")] none [articleCasaX, conjDivV1]]

/-- Counterexample for C4: the article contains an anchor whose href
exactly equals `#` plus the conjugation's identifier, and its
immediately following sibling is that conjugation container, yet the
decoded conjugation is left unattached — the code only consults the
first anchor whose class starts with `e`, and this anchor's class is
`x`. -/
theorem conjugation_unattached_despite_matching_anchor :
    ((findName "a" (nodeChildren articleCasaX)).bind (fun t => attrOf t "href")) =
      some "#conjugacionv1" ∧
    (parseConjugation [conjDivV1]).map (fun cj => cj.id) = .ok "conjugacionv1" ∧
    (parseSearchResult pageNonEAnchor).map (fun st =>
      st.articles.map (fun x => x.conjugations.isSome)) = .ok [false] :=
  ⟨rfl, rfl, rfl⟩

lemma parseArticle_conj_none (frag : List HNode) (a : ArticleE)
    (h : parseArticle frag = .ok a) : a.conjugations = none := by
  simp only [parseArticle, bind, Except.bind] at h
  split at h
  · simp at h
  · split at h
    · simp at h
    · split at h
      · simp at h
      · split at h
        · simp at h
        · split at h
          · simp at h
          · cases h
            rfl

/-- C4 (amended): on a results page, an article followed (as next
matching sibling) by a conjugation container gets the decoded
Conjugation attached exactly when the first anchor descendant whose
class starts with `e` carries an href equal to `#` plus the
conjugation's identifier (`articleAnchorMatches`); with any other
anchor situation — matching href on a non-`e` anchor included — the
article's conjugation stays unset. -/
theorem conjugation_attach_requires_first_e_anchor
    (artNode : HNode) (rest : List HNode) (a : ArticleE) (cd : HNode)
    (c : ConjugationE) (tl : List ArticleE)
    (hart : isArticleTag artNode = true)
    (hpa : parseArticle [artNode] = .ok a)
    (hcd : rest.find? isConjDiv = some cd)
    (hpc : parseConjugation [cd] = .ok c)
    (htl : articlesPhase rest = .ok tl) :
    articlesPhase (artNode :: rest) =
      .ok ((if articleAnchorMatches artNode c.id then
              { a with conjugations := some c } else a) :: tl) ∧
    ((articlesPhase (artNode :: rest)).map (fun l =>
        l.head?.map (fun x => x.conjugations.isSome))) =
      .ok (some (articleAnchorMatches artNode c.id)) := by
  have hnone := parseArticle_conj_none [artNode] a hpa
  have h1 : articlesPhase (artNode :: rest) =
      .ok ((if articleAnchorMatches artNode c.id then
              { a with conjugations := some c } else a) :: tl) := by
    simp [articlesPhase, hart, hpa, hcd, hpc, htl, bind, Except.bind,
          pure, Except.pure]
  refine ⟨h1, ?_⟩
  rw [h1]
  by_cases hm : articleAnchorMatches artNode c.id
  · simp [hm, Except.map]
  · simp [hm, Except.map, hnone]

/-- A bare decodable article: only the headword header. -/
def articleBare : HNode := .tagN "article" [("id", "a2")] none [headerCasa]

/-- The decoded form of `articleBare`. -/
def articleBareE : ArticleE :=
  { id := "a2",
    lema := { id := "", is_foreign := false, lema := "casa", index := 0,
              female_suffix := "",
              html := "<header class=\"f\">casa</header>" },
    supplementary_info := [], definitions := [], complex_forms := [],
    other_entries := [], conjugations := none, raw_text := "",
    html := "<article id=\"a2\"><header class=\"f\">casa</header></article>" }

/-- The decoded form of `conjDivV1`. -/
def conjV1E : ConjugationE :=
  { id := "conjugacionv1", verb := "cantar", conjugations := [],
    html := "<div id=\"conjugacion\"><article id=\"v1\"><header><b>cantar</b></header></article></div>" }

/-- Witness for C4 at a concrete article/conjugation pair. -/
theorem conjugation_attach_requires_first_e_anchor_witness :
    articlesPhase [articleBare, conjDivV1] =
      .ok [(if articleAnchorMatches articleBare conjV1E.id then
              { articleBareE with conjugations := some conjV1E }
            else articleBareE)] :=
  (conjugation_attach_requires_first_e_anchor articleBare [conjDivV1]
    articleBareE conjDivV1 conjV1E [] rfl rfl rfl rfl rfl).1

/-! ## The dictionary output of a search result (C8, C9) -/

lemma alookup_append (l1 l2 : List (String × JVal)) (k : String) :
    alookup (l1 ++ l2) k =
      match alookup l1 k with
      | some v => some v
      | none => alookup l2 k := by
  induction l1 with
  | nil => simp [alookup]
  | cons hd t ih =>
      obtain ⟨a, v⟩ := hd
      by_cases hk : k = a
      · simp [alookup, hk]
      · simp [alookup, hk, ih]

lemma srDictBase_no_collections (sr : SearchResultE) (ext : Bool) :
    alookup (srDictBase sr ext) "articles" = none ∧
    alookup (srDictBase sr ext) "related_entries" = none := by
  cases ext <;> simp [srDictBase, alookup]

/-- C9: the dictionary produced by `SearchResult.to_dict` never holds
both collection keys: `articles` is present exactly when the parsed
article list is non-empty, `related_entries` is present exactly when the
article list is empty and the related-entries map is non-empty, and
neither key appears when both collections are empty. -/
theorem searchresult_to_dict_exclusive (sr : SearchResultE) (ext : Bool)
    (dres : List (String × JVal)) (h : srToDict sr ext = some dres) :
    ((alookup dres "articles").isSome = true ↔ sr.articles ≠ []) ∧
    ((alookup dres "related_entries").isSome = true ↔
      sr.articles = [] ∧ sr.related_entries ≠ []) ∧
    ¬((alookup dres "articles").isSome = true ∧
      (alookup dres "related_entries").isSome = true) := by
  obtain ⟨hb1, hb2⟩ := srDictBase_no_collections sr ext
  by_cases ha : sr.articles.isEmpty
  · have ha' : sr.articles = [] := by simpa using ha
    by_cases hr : sr.related_entries.isEmpty
    · have hr' : sr.related_entries = [] := by simpa using hr
      have hd : dres = srDictBase sr ext := by
        simp only [srToDict, ha, hr, Bool.not_true, bind, Option.bind] at h
        exact (Option.some_inj.mp h).symm
      subst hd
      simp [hb1, hb2, ha', hr']
    · have hr' : sr.related_entries ≠ [] := by
        intro he
        simp [he] at hr
      have hd : dres = srDictBase sr ext ++
          [("related_entries", .obj (sr.related_entries.map (fun p =>
            (optKeyStr p.1, JVal.arr (p.2.map (fun w => .obj (wordToDict w ext)))))))] := by
        simp only [srToDict, ha, hr, Bool.not_true, bind, Option.bind] at h
        exact (Option.some_inj.mp h).symm
      subst hd
      simp [alookup_append, hb1, hb2, alookup, ha', hr']
  · have ha' : sr.articles ≠ [] := by
      intro he
      simp [he] at ha
    cases hm : mapMO (articleToDict · ext) sr.articles with
    | none =>
        simp [srToDict, ha, hm, bind, Option.bind] at h
    | some arts =>
        have hd : dres = srDictBase sr ext ++
            [("articles", .arr (arts.map .obj))] := by
          simp only [srToDict, ha, Bool.not_false, bind, Option.bind, hm] at h
          exact (Option.some_inj.mp h).symm
        subst hd
        simp [alookup_append, hb1, hb2, alookup, ha']

/-- A search result holding only a related-entries group. -/
def srRelatedOnly : SearchResultE :=
  { title := "t", canonical := "", meta_description := "", articles := [],
    related_entries := [(some "x",
      [{ text := "w", href := "", parent_href := "", is_active_link := false,
         html := "" }])],
    html := "" }

/-- The compact dictionary of `srRelatedOnly`. -/
def srRelatedOnlyDict : List (String × JVal) :=
  [("title", .s "t"),
   ("related_entries", .obj [("x", .arr [.obj [("text", .s "w")]])])]

/-- Witness for C9 at a concrete search result with only related
entries: its dictionary carries `related_entries` and no `articles`. -/
theorem searchresult_to_dict_exclusive_witness :
    (alookup srRelatedOnlyDict "related_entries").isSome = true ∧
    (alookup srRelatedOnlyDict "articles").isSome = false := by
  have h := searchresult_to_dict_exclusive srRelatedOnly false srRelatedOnlyDict rfl
  refine ⟨h.2.1.mpr ⟨rfl, by simp [srRelatedOnly]⟩, ?_⟩
  have := h.1
  cases hb : (alookup srRelatedOnlyDict "articles").isSome
  · rfl
  · exact absurd rfl (this.mp hb)

lemma alookup_isSome_iff (l : List (String × JVal)) (k : String) :
    (alookup l k).isSome = true ↔ k ∈ l.map Prod.fst := by
  induction l with
  | nil => simp [alookup]
  | cons hd t ih =>
      obtain ⟨a, v⟩ := hd
      by_cases hk : k = a <;> simp [alookup, hk, ih]

lemma ksAbbr (a : AbbrE) (k : String)
    (hk : (alookup (abbrToDict a false) k).isSome = true) :
    (alookup (abbrToDict a true) k).isSome = true := by
  rw [alookup_isSome_iff] at hk ⊢
  simp [abbrToDict] at hk ⊢
  tauto

lemma ksWord (w : WordE) (k : String)
    (hk : (alookup (wordToDict w false) k).isSome = true) :
    (alookup (wordToDict w true) k).isSome = true := by
  rw [alookup_isSome_iff] at hk ⊢
  by_cases hw : w.is_active_link <;> simp [wordToDict, hw] at hk ⊢ <;> tauto

lemma ksSentence (s : SentenceE) (k : String)
    (hk : (alookup (sentenceToDict s false) k).isSome = true) :
    (alookup (sentenceToDict s true) k).isSome = true := by
  rw [alookup_isSome_iff] at hk ⊢
  simp [sentenceToDict] at hk ⊢
  tauto

lemma ksEntryLema (l : EntryLemaE) (k : String)
    (hk : (alookup (entryLemaToDict l false) k).isSome = true) :
    (alookup (entryLemaToDict l true) k).isSome = true := by
  rw [alookup_isSome_iff] at hk ⊢
  simp [entryLemaToDict] at hk ⊢
  tauto

lemma ksArticleLema (l : ArticleLemaE) (k : String)
    (hk : (alookup (articleLemaToDict l false) k).isSome = true) :
    (alookup (articleLemaToDict l true) k).isSome = true := by
  rw [alookup_isSome_iff] at hk ⊢
  simp [articleLemaToDict] at hk ⊢
  tauto

lemma ksConj (c : ConjugationE) (k : String)
    (hk : (alookup (conjToDict c false) k).isSome = true) :
    (alookup (conjToDict c true) k).isSome = true := by
  rw [alookup_isSome_iff] at hk ⊢
  simp [conjToDict] at hk ⊢
  tauto

lemma ksDef (d : DefinitionE) (dc de : List (String × JVal))
    (hc : defToDict d false = some dc) (he : defToDict d true = some de)
    (k : String) (hk : (alookup dc k).isSome = true) :
    (alookup de k).isSome = true := by
  cases hcat : d.category with
  | none => simp [defToDict, hcat, bind, Option.bind] at hc
  | some cat =>
      simp only [defToDict, hcat, dIsAdjective, dIsAdverb, dIsNoun, dIsPronoun,
        dIsVerb, Option.map_some', bind, Option.bind, Option.pure_def, Option.some_inj] at hc he
      subst hc
      subst he
      rw [alookup_isSome_iff] at hk ⊢
      simp at hk ⊢
      tauto

lemma ksEntry (e : EntryE) (ec ee : List (String × JVal))
    (hc : entryToDict e false = some ec) (he : entryToDict e true = some ee)
    (k : String) (hk : (alookup ec k).isSome = true) :
    (alookup ee k).isSome = true := by
  cases hmc : mapMO (defToDict · false) e.definitions with
  | none => simp [entryToDict, hmc, bind, Option.bind] at hc
  | some dcs =>
      cases hme : mapMO (defToDict · true) e.definitions with
      | none => simp [entryToDict, hme, bind, Option.bind] at he
      | some des =>
          simp only [entryToDict, hmc, hme, bind, Option.bind,
            Option.pure_def, Option.some_inj] at hc he
          subst hc
          subst he
          rw [alookup_isSome_iff] at hk ⊢
          simp at hk ⊢
          tauto

lemma ksArticle (a : ArticleE) (ac ae : List (String × JVal))
    (hc : articleToDict a false = some ac) (he : articleToDict a true = some ae)
    (k : String) (hk : (alookup ac k).isSome = true) :
    (alookup ae k).isSome = true := by
  cases hv : articleIsVerb a with
  | none => simp [articleToDict, hv, bind, Option.bind] at hc
  | some iv =>
      cases hmc : mapMO (defToDict · false) a.definitions with
      | none => simp [articleToDict, hv, hmc, bind, Option.bind] at hc
      | some dcs =>
      cases hme : mapMO (defToDict · true) a.definitions with
      | none => simp [articleToDict, hv, hme, bind, Option.bind] at he
      | some des =>
      cases hcc : mapMO (entryToDict · false) a.complex_forms with
      | none => simp [articleToDict, hv, hmc, hcc, bind, Option.bind] at hc
      | some ccs =>
      cases hce : mapMO (entryToDict · true) a.complex_forms with
      | none => simp [articleToDict, hv, hme, hce, bind, Option.bind] at he
      | some ces =>
          simp only [articleToDict, hv, hmc, hme, hcc, hce, bind, Option.bind,
            Option.pure_def, Option.some_inj] at hc he
          subst hc
          subst he
          rw [alookup_isSome_iff] at hk ⊢
          cases hconj : a.conjugations <;> simp [hconj] at hk ⊢ <;> tauto

lemma ksSr (sr : SearchResultE) (sc se : List (String × JVal))
    (hc : srToDict sr false = some sc) (he : srToDict sr true = some se)
    (k : String) (hk : (alookup sc k).isSome = true) :
    (alookup se k).isSome = true := by
  by_cases ha : sr.articles.isEmpty
  · by_cases hr : sr.related_entries.isEmpty
    · simp [srToDict, ha, hr, bind, Option.bind, Option.pure_def] at hc he
      subst hc
      subst he
      rw [alookup_isSome_iff] at hk ⊢
      simp [srDictBase] at hk ⊢
      tauto
    · simp [srToDict, ha, hr, bind, Option.bind, Option.pure_def] at hc he
      subst hc
      subst he
      rw [alookup_isSome_iff] at hk ⊢
      simp [srDictBase] at hk ⊢
      tauto
  · cases hmc : mapMO (articleToDict · false) sr.articles with
    | none => simp [srToDict, ha, hmc, bind, Option.bind] at hc
    | some acs =>
        cases hme : mapMO (articleToDict · true) sr.articles with
        | none => simp [srToDict, ha, hme, bind, Option.bind] at he
        | some aes =>
            simp [srToDict, ha, hmc, hme, bind, Option.bind,
              Option.pure_def] at hc he
            subst hc
            subst he
            rw [alookup_isSome_iff] at hk ⊢
            simp [srDictBase] at hk ⊢
            tauto

/-- C8 (amended): for every entity type, every key present in the
compact dictionary representation is also present in the extended one
(the values of keys holding nested entity representations differ: the
extended dictionary embeds the extended representations). -/
theorem to_dict_extended_superset_keys :
    (∀ (a : AbbrE) (k : String), (alookup (abbrToDict a false) k).isSome = true →
       (alookup (abbrToDict a true) k).isSome = true) ∧
    (∀ (w : WordE) (k : String), (alookup (wordToDict w false) k).isSome = true →
       (alookup (wordToDict w true) k).isSome = true) ∧
    (∀ (s : SentenceE) (k : String),
       (alookup (sentenceToDict s false) k).isSome = true →
       (alookup (sentenceToDict s true) k).isSome = true) ∧
    (∀ (l : EntryLemaE) (k : String),
       (alookup (entryLemaToDict l false) k).isSome = true →
       (alookup (entryLemaToDict l true) k).isSome = true) ∧
    (∀ (l : ArticleLemaE) (k : String),
       (alookup (articleLemaToDict l false) k).isSome = true →
       (alookup (articleLemaToDict l true) k).isSome = true) ∧
    (∀ (c : ConjugationE) (k : String),
       (alookup (conjToDict c false) k).isSome = true →
       (alookup (conjToDict c true) k).isSome = true) ∧
    (∀ (d : DefinitionE) (dc de : List (String × JVal)),
       defToDict d false = some dc → defToDict d true = some de →
       ∀ k, (alookup dc k).isSome = true → (alookup de k).isSome = true) ∧
    (∀ (e : EntryE) (ec ee : List (String × JVal)),
       entryToDict e false = some ec → entryToDict e true = some ee →
       ∀ k, (alookup ec k).isSome = true → (alookup ee k).isSome = true) ∧
    (∀ (a : ArticleE) (ac ae : List (String × JVal)),
       articleToDict a false = some ac → articleToDict a true = some ae →
       ∀ k, (alookup ac k).isSome = true → (alookup ae k).isSome = true) ∧
    (∀ (sr : SearchResultE) (sc se : List (String × JVal)),
       srToDict sr false = some sc → srToDict sr true = some se →
       ∀ k, (alookup sc k).isSome = true → (alookup se k).isSome = true) :=
  ⟨ksAbbr, ksWord, ksSentence, ksEntryLema, ksArticleLema, ksConj,
   fun d dc de hc he k hk => ksDef d dc de hc he k hk,
   fun e ec ee hc he k hk => ksEntry e ec ee hc he k hk,
   fun a ac ae hc he k hk => ksArticle a ac ae hc he k hk,
   fun sr sc se hc he k hk => ksSr sr sc se hc he k hk⟩

/-- Number of keys of a dict value. -/
def objLen : JVal → Nat
  | .obj l => l.length
  | _ => 0

/-- Counterexample for C8: for a constructed interjection definition the
`category` key is present in both representations but holds different
values — the compact one embeds the category's compact dictionary
(two keys), the extended one its extended dictionary (four keys). -/
theorem to_dict_category_value_differs :
    ((parseDefinition interjDefFrag).toOption.bind (fun d =>
       (defToDict d false).map (fun l => (alookup l "category").map objLen))) =
      some (some 2) ∧
    ((parseDefinition interjDefFrag).toOption.bind (fun d =>
       (defToDict d true).map (fun l => (alookup l "category").map objLen))) =
      some (some 4) ∧
    (2 : Nat) ≠ 4 := ⟨rfl, rfl, by decide⟩

/-- The compact dictionary of `defWithCategory`. -/
def defWithCategoryCompactDict : List (String × JVal) :=
  [("index", .nat 1),
   ("category", .obj [("abbr", .s "adv."), ("text", .s "adverbio")]),
   ("is", .obj [("adjective", .b false), ("adverb", .b true), ("noun", .b false),
                ("pronoun", .b false), ("verb", .b false)]),
   ("abbreviations", .arr []), ("sentence", .obj [("text", .s "")]),
   ("examples", .arr [])]

/-- The extended dictionary of `defWithCategory`. -/
def defWithCategoryExtDict : List (String × JVal) :=
  [("html", .s ""), ("id", .s ""), ("index", .nat 1),
   ("category", .obj [("html", .s ""), ("abbr", .s "adv."), ("class", .s "d"),
                      ("text", .s "adverbio")]),
   ("is", .obj [("adjective", .b false), ("adverb", .b true), ("noun", .b false),
                ("pronoun", .b false), ("verb", .b false)]),
   ("first_of_category", .b true),
   ("abbreviations", .arr []),
   ("sentence", .obj [("html", .s ""), ("text", .s ""), ("components", .arr [])]),
   ("examples", .arr []), ("raw_text", .s "")]

/-- Witness for C8 at a concrete definition: a key of the compact
dictionary found in the extended one. -/
theorem to_dict_extended_superset_keys_witness :
    (alookup defWithCategoryExtDict "category").isSome = true :=
  to_dict_extended_superset_keys.2.2.2.2.2.2.1 defWithCategory
    defWithCategoryCompactDict defWithCategoryExtDict rfl rfl "category" rfl

end Pyrae
